import Mathlib

/-!
Shallow embedding of the `mc-attr` playtime-tracker core
(`src/session_manager.py` and `src/command_handler.py`).

Conventions of the embedding:
* Wall-clock instants (`datetime.now()`, `last_checked`, `session_start`) are
  rationals, in seconds; `delta = (now - last_checked).total_seconds()` becomes
  plain subtraction on `ℚ`.
* Calendar dates (`session_date`, `today_str`) are abstract day identifiers of
  type `Nat`; the code only ever compares them for equality.
* `weekday` is a `Nat` (0 = Monday .. 6 = Sunday), exactly as Python's
  `datetime.weekday()`; the code computes yesterday's weekday as
  `(now - timedelta(days=1)).weekday()`, i.e. `(weekday + 6) % 7`.
* The `sessions` dict is an association list `Ledger` preserving insertion
  order, like a Python dict.  `lget`/`lset` are dict lookup / upsert.
* `PLAY_LIMIT.total_seconds()` is the parameter `baseLimit : ℚ` and the
  externally configured table `FREEPLAY_DAYS` is the parameter
  `freeplayDays : Nat → Bool` of `session_cycle`.
* Side effects (`send_message`, `run_command`) are collected in a `List Eff`;
  the single announcement fired by the threshold scan (one broadcast message
  plus one title, lines 256-260) is recorded as one `Eff.announceThreshold`
  carrying the fired label.
-/

/-- The five announcement labels `"1min" .. "30min"` of `session_manager.py`. -/
inductive Label where
  | oneMin
  | fiveMin
  | tenMin
  | fifteenMin
  | thirtyMin
deriving DecidableEq

/-- The `announcements` sub-dict: one flag per label. -/
structure Announcements where
  oneMin : Bool
  fiveMin : Bool
  tenMin : Bool
  fifteenMin : Bool
  thirtyMin : Bool
deriving DecidableEq

/-- `{k: False for k in ["1min", "5min", "10min", "15min", "30min"]}`. -/
def Announcements.allFalse : Announcements :=
  ⟨false, false, false, false, false⟩

/-- Read the flag of one label. -/
def Announcements.get (a : Announcements) : Label → Bool
  | .oneMin => a.oneMin
  | .fiveMin => a.fiveMin
  | .tenMin => a.tenMin
  | .fifteenMin => a.fifteenMin
  | .thirtyMin => a.thirtyMin

/-- Set the flag of one label to `True`. -/
def Announcements.set (a : Announcements) : Label → Announcements
  | .oneMin => {a with oneMin := true}
  | .fiveMin => {a with fiveMin := true}
  | .tenMin => {a with tenMin := true}
  | .fifteenMin => {a with fifteenMin := true}
  | .thirtyMin => {a with thirtyMin := true}

/-- One per-player session record of `sessions.json`. -/
structure Session where
  session_start : ℚ
  playtime : ℚ
  rollover_time : ℚ
  online : Bool
  session_date : Nat
  banned : Bool
  last_checked : ℚ
  announcements : Announcements
deriving DecidableEq

/-- The in-memory / persisted `sessions` table: a Python dict, modeled as an
insertion-ordered association list. -/
abbrev Ledger : Type := List (String × Session)

/-- Dict lookup: `sessions[player]` / `player in sessions`. -/
def lget : Ledger → String → Option Session
  | [], _ => none
  | (q, s) :: rest, p => if q = p then some s else lget rest p

/-- Dict upsert: `sessions[player] = data` (updates in place, or appends a new
key at the end, like a Python dict). -/
def lset : Ledger → String → Session → Ledger
  | [], p, s => [(p, s)]
  | (q, t) :: rest, p, s =>
      if q = p then (p, s) :: rest else (q, t) :: lset rest p s

/-- Map a key-aware function over all entries (a `for player, data in
sessions.items()` loop that only mutates fields). -/
def lmap (g : String → Session → Session) (L : Ledger) : Ledger :=
  L.map (fun e => (e.1, g e.1 e.2))

/-- Side effects emitted through `send_message` / `run_command`. -/
inductive Eff where
  /-- `send_message(target, ...)`; `none` is a broadcast (`say`). -/
  | tellMsg (target : Option String)
  /-- `run_command("ban <player> ...")`. -/
  | banCmd (player : String)
  /-- `run_command("pardon <player>")`. -/
  | pardonCmd (player : String)
  /-- `run_command("/title ...")` not tied to the threshold scan. -/
  | titleCmd (target : Option String)
  /-- The broadcast-plus-title pair fired by the threshold scan for one label
  (`session_manager.py` lines 256-260). -/
  | announceThreshold (player : String) (l : Label)
deriving DecidableEq

/-- Does this effect issue a `ban` command against player `p`? -/
def Eff.isBanOf (p : String) : Eff → Bool
  | .banCmd q => q = p
  | _ => false

/-- Map-with-effects over all entries of the table, collecting emitted effects
in iteration order. -/
def mapCollect (f : String → Session → Session × List Eff) : Ledger → Ledger × List Eff
  | [] => ([], [])
  | (p, s) :: rest =>
      let r := f p s
      let rr := mapCollect f rest
      ((p, r.1) :: rr.1, r.2 ++ rr.2)

/-- Daily reset of one player (`session_manager.py` lines 81-123), applied when
`data.get("session_date") != today_str`. -/
def dailyResetPlayer (baseLimit now : ℚ) (today weekday : Nat)
    (onlinePlayers : List String) (player : String) (data : Session) :
    Session × List Eff :=
  let yesterdayWeekday := (weekday + 6) % 7
  let r :=
    if yesterdayWeekday < 5 then
      let currentRollover := data.rollover_time
      let yesterdayPlaytime := data.playtime
      let unusedTime := max 0 (baseLimit - yesterdayPlaytime)
      if weekday = 5 then
        ({data with rollover_time := 0},
         if 0 < unusedTime ∧ player ∈ onlinePlayers
           then [Eff.tellMsg (some player)] else [])
      else
        ({data with rollover_time := currentRollover + unusedTime},
         if 0 < unusedTime ∧ player ∈ onlinePlayers
           then [Eff.tellMsg (some player)] else [])
    else
      ({data with rollover_time := data.rollover_time}, [])
  let data := {r.1 with
    session_start := now, playtime := 0, session_date := today,
    last_checked := now, online := false,
    announcements := Announcements.allFalse}
  if data.banned then
    ({data with banned := false}, r.2 ++ [Eff.pardonCmd player, Eff.tellMsg none])
  else
    (data, r.2)

/-- The daily-reset loop over every known player (lines 81-123). -/
def stageDailyReset (baseLimit now : ℚ) (today weekday : Nat)
    (onlinePlayers : List String) (L : Ledger) : Ledger × List Eff :=
  mapCollect
    (fun p d =>
      if d.session_date ≠ today then
        dailyResetPlayer baseLimit now today weekday onlinePlayers p d
      else (d, []))
    L

/-- Per-player reset performed when the weekend (freeplay) period ends
(lines 136-145); `online` is deliberately preserved. -/
def weekdayStartResetPlayer (now : ℚ) (player : String) (data : Session) :
    Session × List Eff :=
  ({data with
      playtime := 0, rollover_time := 0, session_start := now,
      last_checked := now, banned := false,
      announcements := Announcements.allFalse},
   [Eff.pardonCmd player])

/-- The freeplay unlimited-play transition logic (lines 126-145); returns the
new table, the new `unlimited_play_announced` flag, and the effects. -/
def stageFreeplayTransition (now : ℚ) (isFreeplay announced : Bool)
    (L : Ledger) : Ledger × Bool × List Eff :=
  if isFreeplay ∧ ¬announced then
    (L, true, [Eff.tellMsg none, Eff.titleCmd none])
  else if ¬isFreeplay ∧ announced then
    let r := mapCollect (weekdayStartResetPlayer now) L
    (r.1, false, [Eff.tellMsg none, Eff.titleCmd none] ++ r.2)
  else
    (L, announced, [])

/-- The fresh session created for a roster player absent from the table
(lines 155-163).  The Python dict has no `last_checked` key at creation; it is
always written (line 212) before it is ever read, so we initialize it to `now`. -/
def freshSession (now : ℚ) (today : Nat) : Session :=
  { session_start := now, playtime := 0, rollover_time := 0, online := false,
    session_date := today, banned := false, last_checked := now,
    announcements := Announcements.allFalse }

/-- Handling of one player of the online roster (lines 165-212): first-login
detection, delta clamping, ban-evasion check, playtime integration. -/
def handleOnlinePlayer (baseLimit now : ℚ) (isFreeplay : Bool)
    (player : String) (s : Session) : Session × List Eff :=
  let wasOnline := s.online
  let s := {s with online := true}
  if wasOnline then
    let delta := now - s.last_checked
    let delta := if 120 < delta then 60 else if delta < 0 then 0 else delta
    if ¬isFreeplay ∧ s.banned then
      ({s with last_checked := now}, [Eff.banCmd player])
    else if 0 < delta then
      ({s with playtime := s.playtime + delta, last_checked := now}, [])
    else
      ({s with last_checked := now}, [])
  else
    if ¬isFreeplay then
      let rolloverTime := s.rollover_time
      let totalLimit := baseLimit + rolloverTime
      let currentPlaytime := max 0 s.playtime
      let s := {s with playtime := currentPlaytime}
      let secondsRemaining := totalLimit - currentPlaytime
      if secondsRemaining ≤ 0 ∨ s.banned then
        ({s with last_checked := now}, [Eff.tellMsg (some player)])
      else
        ({s with last_checked := now}, [Eff.tellMsg (some player)])
    else
      ({s with last_checked := now}, [Eff.tellMsg (some player)])

/-- The `for player in online_players` loop (lines 149-212). -/
def stageOnlinePlayers (baseLimit now : ℚ) (today : Nat) (isFreeplay : Bool) :
    List String → Ledger → Ledger × List Eff
  | [], L => (L, [])
  | p :: rest, L =>
      let s := (lget L p).getD (freshSession now today)
      let r := handleOnlinePlayer baseLimit now isFreeplay p s
      let rr := stageOnlinePlayers baseLimit now today isFreeplay rest (lset L p r.1)
      (rr.1, r.2 ++ rr.2)

/-- Mark every player not in the roster offline (lines 215-217). -/
def stageMarkOffline (onlinePlayers : List String) (L : Ledger) : Ledger :=
  lmap (fun p d => if p ∈ onlinePlayers then d else {d with online := false}) L

/-- The ascending threshold table (lines 247-253). -/
def thresholds : List (ℚ × Label) :=
  [(60, .oneMin), (300, .fiveMin), (600, .tenMin), (900, .fifteenMin),
   (1800, .thirtyMin)]

/-- The threshold scan (lines 254-262): fire the first threshold whose
`remaining <= threshold` and whose label is unset, set its flag, and stop. -/
def announceScan (remaining : ℚ) :
    List (ℚ × Label) → Announcements → Announcements × Option Label
  | [], ann => (ann, none)
  | (threshold, label) :: rest, ann =>
      if remaining ≤ threshold ∧ ann.get label = false then
        (ann.set label, some label)
      else
        announceScan remaining rest ann

/-- Weekday-limit enforcement for one player (lines 221-282): threshold
announcements, playtime clamp, and the ban-and-reset step. -/
def enforcePlayer (baseLimit now : ℚ) (player : String) (data : Session) :
    Session × List Eff :=
  let rolloverTime := data.rollover_time
  let totalLimit := baseLimit + rolloverTime
  let remaining := totalLimit - data.playtime
  let scan := announceScan remaining thresholds data.announcements
  let data := {data with announcements := scan.1}
  let effs := match scan.2 with
    | some l => [Eff.announceThreshold player l]
    | none => []
  let data := {data with playtime := max 0 data.playtime}
  if totalLimit ≤ data.playtime ∧ data.banned = false then
    ({data with
        banned := true, session_start := now, playtime := 0,
        last_checked := now, online := false,
        announcements := Announcements.allFalse},
     effs ++ [Eff.tellMsg none, Eff.titleCmd (some player), Eff.banCmd player])
  else
    (data, effs)

/-- The process-wide engine flags of `session_manager.py`. -/
structure EngineState where
  unlimited_play_announced : Bool
  first_cycle : Bool
deriving DecidableEq

/-- One full `session_cycle` (lines 56-285).  `file` is the persisted
`sessions.json` snapshot; the returned `Ledger` is the snapshot written by the
final `save_sessions()`.

Note the second `load_sessions()` at line 148: it re-reads the snapshot after
the daily-reset and freeplay-transition loops, whose mutations were never
saved, so those in-memory updates are discarded (their emitted messages and
commands survive). -/
def session_cycle (baseLimit : ℚ) (freeplayDays : Nat → Bool) (now : ℚ)
    (today weekday : Nat) (onlinePlayers : List String) (file : Ledger)
    (es : EngineState) : Ledger × EngineState × List Eff :=
  -- load_sessions(); first-cycle handling (lines 62-73) mutates and saves
  let file1 :=
    if es.first_cycle then
      lmap (fun _ d => {d with online := false, last_checked := now}) file
    else file
  let isFreeplay := freeplayDays weekday
  -- daily reset for ALL players (lines 81-123), in memory only
  let rA := stageDailyReset baseLimit now today weekday onlinePlayers file1
  -- freeplay unlimited logic (lines 126-145), in memory only
  let rB := stageFreeplayTransition now isFreeplay es.unlimited_play_announced rA.1
  -- load_sessions() at line 148: replaces the table with the snapshot,
  -- discarding the mutations of rA and rB
  let mem := file1
  let rC := stageOnlinePlayers baseLimit now today isFreeplay onlinePlayers mem
  let mem := stageMarkOffline onlinePlayers rC.1
  let rE :=
    if isFreeplay then (mem, [])
    else mapCollect (enforcePlayer baseLimit now) mem
  (rE.1, ⟨rB.2.1, false⟩, rA.2 ++ rB.2.2 ++ rC.2 ++ rE.2)

/-- Iterate `session_cycle` over a list of cycle instants, threading the ledger
snapshot and the engine state (the driver loop of `main.py`). -/
def runCycles (baseLimit : ℚ) (freeplayDays : Nat → Bool) (today weekday : Nat)
    (onlinePlayers : List String) : List ℚ → Ledger × EngineState → Ledger × EngineState
  | [], st => st
  | t :: ts, st =>
      let r := session_cycle baseLimit freeplayDays t today weekday
        onlinePlayers st.1 st.2
      runCycles baseLimit freeplayDays today weekday onlinePlayers ts (r.1, r.2.1)

/-- The cycle instants reached from `t0` by successive gaps `ds`. -/
def cycleTimes (t0 : ℚ) : List ℚ → List ℚ
  | [] => []
  | d :: ds => (t0 + d) :: cycleTimes (t0 + d) ds

/-!
Embedding of the wagering subsystem and the admin ledger mutations of
`src/command_handler.py`.  `cmd_gamble` is modeled after argument parsing:
`bet_minutes` and `multiplier` are the already-parsed `int(args[0])` and
`float(args[1])` (a missing/unparsable argument is rejected upstream with a
usage message and no ledger mutation).  The uniform draw `random.random()` is
the parameter `roll`.  Float arithmetic is modeled exactly over `ℚ`; Python's
`int(...)` truncation toward zero is `pyInt`.
-/

/-- Python `int(q)`: truncation toward zero. -/
def pyInt (q : ℚ) : ℤ :=
  if 0 ≤ q then ⌊q⌋ else ⌈q⌉

/-- One row of the gambling configuration: multiplier and win probability. -/
structure MultEntry where
  m : ℚ
  p : ℚ
deriving DecidableEq

/-- The fixed gambling table (`command_handler.py` lines 33-44). -/
def multipliers : List MultEntry :=
  [⟨1.05, 0.8571428571428571⟩, ⟨1.10, 0.8181818181818182⟩,
   ⟨1.25, 0.72⟩, ⟨1.50, 0.6⟩, ⟨2.00, 0.45⟩, ⟨3.00, 0.3⟩,
   ⟨5.00, 0.18⟩, ⟨10.00, 0.09⟩]

/-- The multiplier search (lines 662-666): first table entry within `0.001`
of the submitted multiplier. -/
def findMultConfig (multiplier : ℚ) : List MultEntry → Option MultEntry
  | [] => none
  | mult :: rest =>
      if |mult.m - multiplier| < 0.001 then some mult
      else findMultConfig multiplier rest

/-- Outcome of `cmd_gamble`; each rejection constructor corresponds to one
distinct rejection message of the handler. -/
inductive GambleOutcome where
  /-- "Gambling is disabled on weekends" (lines 551-567). -/
  | rejectWeekend
  /-- "No session data found" (lines 573-577). -/
  | rejectNoSession
  /-- "You need at least 5 minutes remaining" (lines 585-600). -/
  | rejectLowRemaining
  /-- "You can't bet ... you only have ..." (lines 641-655). -/
  | rejectBetOverRemaining
  /-- "Minimum bet is 5 minutes!" (lines 657-659). -/
  | rejectMinBet
  /-- "Invalid multiplier!" (lines 668-675). -/
  | rejectBadMultiplier
  /-- Win, crediting `winnings` seconds of rollover (lines 682-717). -/
  | won (winnings : ℤ)
  /-- Loss (lines 719-754). -/
  | lost
deriving DecidableEq

/-- Is this outcome a precondition rejection (as opposed to a resolved bet)? -/
def GambleOutcome.isReject : GambleOutcome → Bool
  | .won _ => false
  | .lost => false
  | _ => true

/-- `cmd_gamble` (lines 548-759): preconditions, resolution, ledger mutation.
Returns the outcome and the persisted ledger (rejections never save, so the
input ledger is returned unchanged). -/
def cmd_gamble (baseLimit : ℚ) (weekday : Nat) (L : Ledger) (username : String)
    (bet_minutes : ℤ) (multiplier roll : ℚ) : GambleOutcome × Ledger :=
  if 5 ≤ weekday then (.rejectWeekend, L)
  else
    match lget L username with
    | none => (.rejectNoSession, L)
    | some data =>
      let rolloverTime := data.rollover_time
      let totalLimit := baseLimit + rolloverTime
      let remaining := totalLimit - data.playtime
      if remaining < 5 * 60 then (.rejectLowRemaining, L)
      else
        let betSeconds := bet_minutes * 60
        if remaining < (betSeconds : ℚ) then (.rejectBetOverRemaining, L)
        else if bet_minutes < 5 then (.rejectMinBet, L)
        else
          match findMultConfig multiplier multipliers with
          | none => (.rejectBadMultiplier, L)
          | some multConfig =>
            let winChance := multConfig.p
            if roll < winChance then
              let winnings := pyInt ((betSeconds : ℚ) * (multiplier - 1))
              (.won winnings,
               lset L username
                 {data with rollover_time := rolloverTime + (winnings : ℚ)})
            else
              if (betSeconds : ℚ) ≤ rolloverTime then
                (.lost,
                 lset L username
                   {data with rollover_time := rolloverTime - (betSeconds : ℚ)})
              else
                (.lost,
                 lset L username
                   {data with
                     rollover_time := 0,
                     playtime := data.playtime + ((betSeconds : ℚ) - rolloverTime)})

/-- `cmd_addtime` ledger mutation (lines 402-461): add `minutes * 60` seconds
to the target's rollover; no-op if the target has no session. -/
def cmd_addtime (L : Ledger) (target : String) (minutes : ℚ) : Ledger :=
  match lget L target with
  | some data =>
      lset L target {data with rollover_time := data.rollover_time + minutes * 60}
  | none => L

/-- `cmd_resettime` ledger mutation (lines 463-513). -/
def cmd_resettime (L : Ledger) (target : String) : Ledger :=
  match lget L target with
  | some data =>
      lset L target
        {data with
          playtime := 0, rollover_time := 0, banned := false,
          announcements := Announcements.allFalse}
  | none => L

/-- `cmd_unban` ledger mutation (lines 363-400). -/
def cmd_unban (L : Ledger) (target : String) : Ledger :=
  match lget L target with
  | some data => lset L target {data with banned := false}
  | none => L

/-!
Concrete scenarios and definitions used by the claim theorems.
-/

/-- A baseline session used to instantiate gamble scenarios. -/
def gambleSession (playtime rollover : ℚ) : Session :=
  { session_start := 0, playtime := playtime, rollover_time := rollover,
    online := true, session_date := 0, banned := false, last_checked := 0,
    announcements := Announcements.allFalse }

/-- The weekend freeplay calendar (Saturday and Sunday, weekday indices 5, 6).
Modelled from the spec: `constants.py` (`FREEPLAY_DAYS`) is not part of the
sources; the spec and the code's comments designate Saturday/Sunday as the
freeplay days. -/
def weekendFreeplay : Nat → Bool := fun d => decide (5 ≤ d)

/-- A player who finished yesterday with no playtime, offline, unbanned. -/
def c1Session : Session :=
  { session_start := 0, playtime := 0, rollover_time := 0, online := false,
    session_date := 2, banned := false, last_checked := 0,
    announcements := Announcements.allFalse }

/-- The same player, but banned. -/
def c2Session : Session :=
  {c1Session with banned := true}

/-- First cycle on day 3 (a Tuesday) over `c2Session`'s ledger. -/
def c2run1 : Ledger × EngineState × List Eff :=
  session_cycle 10800 weekendFreeplay 100 3 1 [] [("alice", c2Session)]
    ⟨false, false⟩

/-- Second cycle on the same day 3, continuing from the first. -/
def c2run2 : Ledger × EngineState × List Eff :=
  session_cycle 10800 weekendFreeplay 200 3 1 [] c2run1.1 c2run1.2.1

/-- A player at exactly the 3600-second limit on Friday (day id 500,
weekday 4), with no announcement fired yet. -/
def c5Session : Session :=
  { session_start := 0, playtime := 3600, rollover_time := 0, online := false,
    session_date := 500, banned := false, last_checked := 0,
    announcements := Announcements.allFalse }

/-- Friday cycle: the "1min" announcement fires (remaining 0) and the player
is banned, which clears all announcement flags. -/
def c5run1 : Ledger × EngineState × List Eff :=
  session_cycle 3600 weekendFreeplay 0 500 4 [] [("p", c5Session)]
    ⟨false, false⟩

/-- First Saturday cycle (day id 501, weekday 5): the player — pardoned
in-game by the (discarded) daily reset — logs back in under freeplay. -/
def c5run2 : Ledger × EngineState × List Eff :=
  session_cycle 3600 weekendFreeplay 1000 501 5 ["p"] c5run1.1 c5run1.2.1

/-- Thirty further Saturday cycles 120 seconds apart: freeplay accrual brings
the (still `banned = true`) player back up to 3600 seconds of playtime. -/
def c5run3 : Ledger × EngineState :=
  runCycles 3600 weekendFreeplay 501 5 ["p"]
    ((List.range 30).map (fun i => (1000 : ℚ) + 120 * ((i : ℚ) + 1)))
    (c5run2.1, c5run2.2.1)

/-- Monday cycle (day id 503, weekday 0): remaining is again 0 and the "1min"
flag — cleared at the Friday ban — is unset, so the same label fires again,
while the persisted `sessionDate` is still Friday's. -/
def c5run4 : Ledger × EngineState × List Eff :=
  session_cycle 3600 weekendFreeplay 300000 503 0 ["p"] c5run3.1 c5run3.2

/-- The non-negativity invariant of C8. -/
def NonnegSession (s : Session) : Prop :=
  0 ≤ s.playtime ∧ 0 ≤ s.rollover_time

/-!
Plumbing lemmas: how a single player's entry moves through the stages of a
cycle.
-/

theorem lget_lset_self (L : Ledger) (p : String) (s : Session) :
    lget (lset L p s) p = some s := by
  induction L with
  | nil => simp [lget, lset]
  | cons e rest ih =>
      obtain ⟨q, t⟩ := e
      by_cases h : q = p
      · simp [lget, lset, h]
      · simp [lget, lset, h, ih]

theorem lget_lset_ne (L : Ledger) (p q : String) (s : Session) (h : q ≠ p) :
    lget (lset L q s) p = lget L p := by
  induction L with
  | nil => simp [lget, lset, h]
  | cons e rest ih =>
      obtain ⟨r, t⟩ := e
      by_cases hr : r = q
      · subst hr; simp [lget, lset, h]
      · simp [lget, lset, hr, ih]

theorem lget_lmap (g : String → Session → Session) (L : Ledger) (p : String) :
    lget (lmap g L) p = (lget L p).map (g p) := by
  induction L with
  | nil => simp [lget, lmap]
  | cons e rest ih =>
      obtain ⟨q, t⟩ := e
      by_cases h : q = p
      · subst h; simp [lget, lmap]
      · simpa [lget, lmap, h] using ih

theorem lget_mapCollect (f : String → Session → Session × List Eff) (L : Ledger)
    (p : String) :
    lget (mapCollect f L).1 p = (lget L p).map (fun s => (f p s).1) := by
  induction L with
  | nil => simp [lget, mapCollect]
  | cons e rest ih =>
      obtain ⟨q, t⟩ := e
      by_cases h : q = p
      · subst h; simp [lget, mapCollect]
      · simpa [lget, mapCollect, h] using ih

theorem lget_stageOnlinePlayers_notMem (baseLimit now : ℚ) (today : Nat)
    (isFreeplay : Bool) (roster : List String) (L : Ledger) (p : String)
    (h : p ∉ roster) :
    lget (stageOnlinePlayers baseLimit now today isFreeplay roster L).1 p
      = lget L p := by
  induction roster generalizing L with
  | nil => simp [stageOnlinePlayers]
  | cons q rest ih =>
      have hq : q ≠ p := by
        intro hqp
        exact h (hqp ▸ List.mem_cons_self q rest)
      have hrest : p ∉ rest := fun hm => h (List.mem_cons_of_mem q hm)
      simp only [stageOnlinePlayers]
      rw [ih _ hrest, lget_lset_ne _ _ _ _ hq]

theorem lget_stageOnlinePlayers_mem (baseLimit now : ℚ) (today : Nat)
    (isFreeplay : Bool) (roster : List String) (L : Ledger) (p : String)
    (hnd : roster.Nodup) (h : p ∈ roster) :
    lget (stageOnlinePlayers baseLimit now today isFreeplay roster L).1 p
      = some (handleOnlinePlayer baseLimit now isFreeplay p
          ((lget L p).getD (freshSession now today))).1 := by
  induction roster generalizing L with
  | nil => simp at h
  | cons q rest ih =>
      by_cases hq : q = p
      · subst hq
        have hrest : q ∉ rest := (List.nodup_cons.mp hnd).1
        simp only [stageOnlinePlayers]
        rw [lget_stageOnlinePlayers_notMem _ _ _ _ _ _ _ hrest, lget_lset_self]
      · have hrest : p ∈ rest := by
          rcases List.mem_cons.mp h with h1 | h1
          · exact absurd h1.symm hq
          · exact h1
        simp only [stageOnlinePlayers]
        rw [ih _ (List.nodup_cons.mp hnd).2 hrest, lget_lset_ne _ _ _ _ hq]

theorem session_cycle_first_cycle_false (baseLimit : ℚ) (freeplayDays : Nat → Bool)
    (now : ℚ) (today weekday : Nat) (onlinePlayers : List String) (file : Ledger)
    (es : EngineState) :
    (session_cycle baseLimit freeplayDays now today weekday onlinePlayers file
      es).2.1.first_cycle = false := rfl

/-- Master lemma: the saved entry of a roster player after one cycle.  The
daily-reset and freeplay-transition stages do not contribute because the
`load_sessions()` at line 148 discards their mutations. -/
theorem session_cycle_lget_mem (baseLimit : ℚ) (freeplayDays : Nat → Bool)
    (now : ℚ) (today weekday : Nat) (onlinePlayers : List String) (file : Ledger)
    (es : EngineState) (p : String)
    (hfc : es.first_cycle = false) (hnd : onlinePlayers.Nodup)
    (hmem : p ∈ onlinePlayers) :
    lget (session_cycle baseLimit freeplayDays now today weekday onlinePlayers
        file es).1 p
      = some (
          (fun s1 =>
            if freeplayDays weekday then s1
            else (enforcePlayer baseLimit now p s1).1)
          (handleOnlinePlayer baseLimit now (freeplayDays weekday) p
            ((lget file p).getD (freshSession now today))).1) := by
  simp only [session_cycle, hfc, if_false, Bool.false_eq_true]
  by_cases hfp : freeplayDays weekday
  · simp only [hfp, if_true]
    rw [stageMarkOffline, lget_lmap,
      lget_stageOnlinePlayers_mem _ _ _ _ _ _ _ hnd hmem]
    simp [hmem]
  · simp only [hfp, if_false, Bool.false_eq_true]
    rw [lget_mapCollect, stageMarkOffline, lget_lmap,
      lget_stageOnlinePlayers_mem _ _ _ _ _ _ _ hnd hmem]
    simp [hmem, hfp]

/-- Master lemma: the saved entry of a player absent from the roster. -/
theorem session_cycle_lget_notMem (baseLimit : ℚ) (freeplayDays : Nat → Bool)
    (now : ℚ) (today weekday : Nat) (onlinePlayers : List String) (file : Ledger)
    (es : EngineState) (p : String)
    (hfc : es.first_cycle = false) (hmem : p ∉ onlinePlayers) :
    lget (session_cycle baseLimit freeplayDays now today weekday onlinePlayers
        file es).1 p
      = (lget file p).map (fun s =>
          if freeplayDays weekday then {s with online := false}
          else (enforcePlayer baseLimit now p {s with online := false}).1) := by
  simp only [session_cycle, hfc, if_false, Bool.false_eq_true]
  by_cases hfp : freeplayDays weekday
  · simp only [hfp, if_true]
    rw [stageMarkOffline, lget_lmap,
      lget_stageOnlinePlayers_notMem _ _ _ _ _ _ _ hmem]
    cases lget file p <;> simp [hmem, hfp]
  · simp only [hfp, if_false, Bool.false_eq_true]
    rw [lget_mapCollect, stageMarkOffline, lget_lmap,
      lget_stageOnlinePlayers_notMem _ _ _ _ _ _ _ hmem]
    cases lget file p <;> simp [hmem, hfp]

/-!
Behavior of the per-player stage functions.
-/

/-- An already-online, unbanned player with a gap in `(0, 120]` is charged
exactly the gap. -/
theorem handleOnlinePlayer_accrue (baseLimit now : ℚ) (isFreeplay : Bool)
    (p : String) (s : Session) (hon : s.online = true) (hban : s.banned = false)
    (hd0 : 0 < now - s.last_checked) (hd1 : now - s.last_checked ≤ 120) :
    (handleOnlinePlayer baseLimit now isFreeplay p s).1
      = {s with
          online := true, playtime := s.playtime + (now - s.last_checked),
          last_checked := now} := by
  simp only [handleOnlinePlayer, hon, if_true, hban]
  have h120 : ¬(120 < now - s.last_checked) := not_lt.mpr hd1
  have hneg : ¬(now - s.last_checked < 0) := not_lt.mpr (le_of_lt hd0)
  simp [h120, hneg, hd0]

/-- An already-online, unbanned player with a gap above 120 seconds is charged
exactly 60 seconds. -/
theorem handleOnlinePlayer_capped (baseLimit now : ℚ) (isFreeplay : Bool)
    (p : String) (s : Session) (hon : s.online = true) (hban : s.banned = false)
    (hd : 120 < now - s.last_checked) :
    (handleOnlinePlayer baseLimit now isFreeplay p s).1
      = {s with
          online := true, playtime := s.playtime + 60,
          last_checked := now} := by
  simp only [handleOnlinePlayer, hon, if_true, hban]
  norm_num [hd]

/-- An already-online, unbanned player with a negative gap is charged nothing. -/
theorem handleOnlinePlayer_negative (baseLimit now : ℚ) (isFreeplay : Bool)
    (p : String) (s : Session) (hon : s.online = true) (hban : s.banned = false)
    (hd : now - s.last_checked < 0) :
    (handleOnlinePlayer baseLimit now isFreeplay p s).1
      = {s with online := true, last_checked := now} := by
  have h120 : ¬(120 < now - s.last_checked) := by linarith
  simp [handleOnlinePlayer, hon, hban, h120, hd]

/-- A player logging in (offline → online transition) is charged nothing; the
playtime is only clamped to be non-negative on non-freeplay days. -/
theorem handleOnlinePlayer_login (baseLimit now : ℚ) (isFreeplay : Bool)
    (p : String) (s : Session) (hoff : s.online = false) :
    (handleOnlinePlayer baseLimit now isFreeplay p s).1
      = if isFreeplay then {s with online := true, last_checked := now}
        else {s with
          online := true, playtime := max 0 s.playtime,
          last_checked := now} := by
  cases isFreeplay with
  | true => simp [handleOnlinePlayer, hoff]
  | false =>
      simp only [handleOnlinePlayer, hoff, Bool.false_eq_true, if_false]
      rw [if_pos (by norm_num)]
      split <;> rfl

/-- An unbanned player strictly under the limit is not banned by the
enforcement step; only the announcement flags and the playtime clamp apply. -/
theorem enforcePlayer_noBan (baseLimit now : ℚ) (p : String) (s : Session)
    (hlt : max 0 s.playtime < baseLimit + s.rollover_time) :
    (enforcePlayer baseLimit now p s).1
      = {s with
          announcements := (announceScan
            (baseLimit + s.rollover_time - s.playtime) thresholds
            s.announcements).1,
          playtime := max 0 s.playtime} := by
  have hc : ¬(baseLimit + s.rollover_time ≤ max 0 s.playtime) := not_le.mpr hlt
  simp [enforcePlayer, hc]

/-- A not-yet-banned player at or over the limit is banned and reset by the
enforcement step, with exactly one ban command emitted. -/
theorem enforcePlayer_ban (baseLimit now : ℚ) (p : String) (s : Session)
    (hban : s.banned = false)
    (hge : baseLimit + s.rollover_time ≤ max 0 s.playtime) :
    (enforcePlayer baseLimit now p s).1
      = {s with
          announcements := Announcements.allFalse, playtime := 0,
          banned := true, session_start := now, last_checked := now,
          online := false}
    ∧ (enforcePlayer baseLimit now p s).2.countP (Eff.isBanOf p) = 1 := by
  constructor
  · simp [enforcePlayer, hge, hban]
  · simp only [enforcePlayer, hge, hban, and_self, if_true]
    rcases (announceScan (baseLimit + s.rollover_time - s.playtime) thresholds
      s.announcements).2 with _ | l <;>
      simp [List.countP, List.countP.go, Eff.isBanOf]

/-- The enforcement step never issues a ban command against an
already-banned player, and leaves them banned. -/
theorem enforcePlayer_banned (baseLimit now : ℚ) (p : String) (s : Session)
    (hban : s.banned = true) :
    (enforcePlayer baseLimit now p s).2.countP (Eff.isBanOf p) = 0
    ∧ (enforcePlayer baseLimit now p s).1.banned = true := by
  constructor
  · simp only [enforcePlayer, hban]
    rcases (announceScan (baseLimit + s.rollover_time - s.playtime) thresholds
      s.announcements).2 with _ | l <;>
      simp [List.countP, List.countP.go, Eff.isBanOf]
  · simp [enforcePlayer, hban]

/-!
Facts about the gambling table and Python `int` truncation.
-/

theorem findMultConfig_mem (m : ℚ) (l : List MultEntry) (e : MultEntry)
    (h : findMultConfig m l = some e) : e ∈ l := by
  induction l with
  | nil => simp [findMultConfig] at h
  | cons x rest ih =>
      by_cases hx : |x.m - m| < 0.001
      · simp only [findMultConfig, hx, if_true, Option.some.injEq] at h
        exact h ▸ List.mem_cons_self x rest
      · simp only [findMultConfig, hx, if_false] at h
        exact List.mem_cons_of_mem x (ih h)

theorem findMultConfig_dist (m : ℚ) (l : List MultEntry) (e : MultEntry)
    (h : findMultConfig m l = some e) : |e.m - m| < 0.001 := by
  induction l with
  | nil => simp [findMultConfig] at h
  | cons x rest ih =>
      by_cases hx : |x.m - m| < 0.001
      · simp only [findMultConfig, hx, if_true, Option.some.injEq] at h
        exact h ▸ hx
      · simp only [findMultConfig, hx, if_false] at h
        exact ih h

theorem findMultConfig_isSome (m : ℚ) (l : List MultEntry)
    (h : ∃ e ∈ l, |e.m - m| < 0.001) : (findMultConfig m l).isSome = true := by
  induction l with
  | nil => simp at h
  | cons x rest ih =>
      by_cases hx : |x.m - m| < 0.001
      · simp [findMultConfig, hx]
      · obtain ⟨e, he, hd⟩ := h
        rcases List.mem_cons.mp he with rfl | he'
        · exact absurd hd hx
        · simp only [findMultConfig, hx, if_false]
          exact ih ⟨e, he', hd⟩

theorem multipliers_one_lt (e : MultEntry) (he : e ∈ multipliers) :
    (1.05 : ℚ) ≤ e.m := by
  simp only [multipliers, List.mem_cons, List.not_mem_nil, or_false] at he
  rcases he with rfl | rfl | rfl | rfl | rfl | rfl | rfl | rfl <;> norm_num

theorem multipliers_payout_int (e : MultEntry) (he : e ∈ multipliers) :
    ∃ c : ℤ, (e.m - 1) * 60 = (c : ℚ) := by
  simp only [multipliers, List.mem_cons, List.not_mem_nil, or_false] at he
  rcases he with rfl | rfl | rfl | rfl | rfl | rfl | rfl | rfl
  · exact ⟨3, by norm_num⟩
  · exact ⟨6, by norm_num⟩
  · exact ⟨15, by norm_num⟩
  · exact ⟨30, by norm_num⟩
  · exact ⟨60, by norm_num⟩
  · exact ⟨120, by norm_num⟩
  · exact ⟨240, by norm_num⟩
  · exact ⟨540, by norm_num⟩

theorem pyInt_intCast (n : ℤ) : pyInt (n : ℚ) = n := by
  unfold pyInt
  split
  · exact Int.floor_intCast n
  · exact Int.ceil_intCast n

theorem pyInt_nonneg (q : ℚ) (h : 0 ≤ q) : 0 ≤ pyInt q := by
  simp only [pyInt, h, if_true]
  exact Int.le_floor.mpr (by exact_mod_cast h)

/-!
Ban-command counting through the stages of a cycle (for the exactly-once ban
property).
-/

theorem countP_mapCollect_eq_zero (f : String → Session → Session × List Eff)
    (L : Ledger) (pr : Eff → Bool)
    (hz : ∀ e : String × Session, e ∈ L → ((f e.1 e.2).2.countP pr) = 0) :
    (mapCollect f L).2.countP pr = 0 := by
  induction L with
  | nil => simp [mapCollect]
  | cons e rest ih =>
      simp only [mapCollect, List.countP_append]
      rw [hz e (List.mem_cons_self e rest),
        ih (fun x hx => hz x (List.mem_cons_of_mem e hx))]

theorem lget_eq_none_iff (L : Ledger) (p : String) :
    lget L p = none ↔ p ∉ L.map Prod.fst := by
  induction L with
  | nil => simp [lget]
  | cons e rest ih =>
      obtain ⟨q, t⟩ := e
      by_cases h : q = p
      · subst h; simp [lget]
      · have hp : ¬p = q := fun hh => h hh.symm
        simp [lget, h, ih, List.mem_cons, not_or, hp]

theorem countP_mapCollect_single (f : String → Session → Session × List Eff)
    (L : Ledger) (p : String) (pr : Eff → Bool)
    (hkeys : (L.map Prod.fst).Nodup)
    (hz : ∀ q t, q ≠ p → ((f q t).2.countP pr) = 0) :
    (mapCollect f L).2.countP pr
      = ((lget L p).map (fun s => (f p s).2.countP pr)).getD 0 := by
  induction L with
  | nil => simp [mapCollect, lget]
  | cons e rest ih =>
      obtain ⟨q, t⟩ := e
      have hkeys2 : (q :: rest.map Prod.fst).Nodup := by simpa using hkeys
      simp only [mapCollect, List.countP_append]
      by_cases h : q = p
      · have hz0 : (mapCollect f rest).2.countP pr = 0 := by
          apply countP_mapCollect_eq_zero
          intro x hx
          apply hz x.1 x.2
          intro hxp
          apply (List.nodup_cons.mp hkeys2).1
          rw [← h] at hxp
          exact hxp ▸ List.mem_map_of_mem Prod.fst hx
        rw [hz0]
        subst h
        simp [lget]
      · rw [hz q t h, ih (List.nodup_cons.mp hkeys2).2]
        simp [lget, h]

theorem countP_isBanOf_dailyResetPlayer (baseLimit now : ℚ) (today weekday : Nat)
    (onlinePlayers : List String) (q p : String) (d : Session) :
    ((dailyResetPlayer baseLimit now today weekday onlinePlayers q d).2.countP
      (Eff.isBanOf p)) = 0 := by
  simp only [dailyResetPlayer]
  split_ifs <;> simp [List.countP, List.countP.go, Eff.isBanOf]

theorem countP_isBanOf_stageDailyReset (baseLimit now : ℚ) (today weekday : Nat)
    (onlinePlayers : List String) (L : Ledger) (p : String) :
    ((stageDailyReset baseLimit now today weekday onlinePlayers L).2.countP
      (Eff.isBanOf p)) = 0 := by
  apply countP_mapCollect_eq_zero
  intro e _
  split_ifs
  · exact countP_isBanOf_dailyResetPlayer _ _ _ _ _ _ _ _
  · simp

theorem countP_isBanOf_stageFreeplayTransition (now : ℚ)
    (isFreeplay announced : Bool) (L : Ledger) (p : String) :
    ((stageFreeplayTransition now isFreeplay announced L).2.2.countP
      (Eff.isBanOf p)) = 0 := by
  simp only [stageFreeplayTransition]
  split_ifs
  · simp [Eff.isBanOf]
  · simp only [List.countP_append]
    rw [countP_mapCollect_eq_zero]
    · simp [List.countP, List.countP.go, Eff.isBanOf]
    · intro e _
      simp [weekdayStartResetPlayer, List.countP, List.countP.go, Eff.isBanOf]
  · simp

theorem countP_isBanOf_handleOnlinePlayer_ne (baseLimit now : ℚ)
    (isFreeplay : Bool) (q p : String) (s : Session) (h : q ≠ p) :
    ((handleOnlinePlayer baseLimit now isFreeplay q s).2.countP
      (Eff.isBanOf p)) = 0 := by
  rw [List.countP_eq_zero]
  intro e he
  simp only [handleOnlinePlayer] at he
  split_ifs at he <;>
    simp only [List.mem_singleton, List.not_mem_nil] at he <;>
    first
      | exact absurd he (by simp)
      | (subst he; simp [Eff.isBanOf, h])

theorem countP_isBanOf_stageOnlinePlayers_notMem (baseLimit now : ℚ)
    (today : Nat) (isFreeplay : Bool) (roster : List String) (L : Ledger)
    (p : String) (h : p ∉ roster) :
    ((stageOnlinePlayers baseLimit now today isFreeplay roster L).2.countP
      (Eff.isBanOf p)) = 0 := by
  induction roster generalizing L with
  | nil => simp [stageOnlinePlayers]
  | cons q rest ih =>
      have hq : q ≠ p := fun hqp => h (hqp ▸ List.mem_cons_self q rest)
      have hrest : p ∉ rest := fun hm => h (List.mem_cons_of_mem q hm)
      simp only [stageOnlinePlayers, List.countP_append]
      rw [countP_isBanOf_handleOnlinePlayer_ne _ _ _ _ _ _ hq, ih _ hrest]

theorem countP_isBanOf_enforcePlayer_ne (baseLimit now : ℚ) (q p : String)
    (s : Session) (h : q ≠ p) :
    ((enforcePlayer baseLimit now q s).2.countP (Eff.isBanOf p)) = 0 := by
  simp only [enforcePlayer]
  generalize announceScan (baseLimit + s.rollover_time - s.playtime)
    thresholds s.announcements = sc
  obtain ⟨a, fired⟩ := sc
  rcases fired with _ | l <;> split_ifs <;>
    simp [List.countP, List.countP.go, Eff.isBanOf, h]

theorem lmap_keys (g : String → Session → Session) (L : Ledger) :
    (lmap g L).map Prod.fst = L.map Prod.fst := by
  induction L with
  | nil => rfl
  | cons e rest ih => simp [lmap, ih]

theorem mapCollect_keys (f : String → Session → Session × List Eff) (L : Ledger) :
    (mapCollect f L).1.map Prod.fst = L.map Prod.fst := by
  induction L with
  | nil => rfl
  | cons e rest ih =>
      obtain ⟨q, t⟩ := e
      simp [mapCollect, ih]

theorem lset_keys_present (L : Ledger) (p : String) (s : Session)
    (h : ¬lget L p = none) :
    (lset L p s).map Prod.fst = L.map Prod.fst := by
  induction L with
  | nil => simp [lget] at h
  | cons e rest ih =>
      obtain ⟨q, t⟩ := e
      by_cases hq : q = p
      · subst hq; simp [lset]
      · simp only [lget, hq, if_false] at h
        simp [lset, hq, ih h]

theorem lset_keys_absent (L : Ledger) (p : String) (s : Session)
    (h : lget L p = none) :
    (lset L p s).map Prod.fst = L.map Prod.fst ++ [p] := by
  induction L with
  | nil => simp [lset]
  | cons e rest ih =>
      obtain ⟨q, t⟩ := e
      by_cases hq : q = p
      · simp [lget, hq] at h
      · simp only [lget, hq, if_false] at h
        simp [lset, hq, ih h]

theorem stageOnlinePlayers_keys_nodup (baseLimit now : ℚ) (today : Nat)
    (isFreeplay : Bool) (roster : List String) (L : Ledger)
    (hkeys : (L.map Prod.fst).Nodup) :
    (((stageOnlinePlayers baseLimit now today isFreeplay roster L).1.map
      Prod.fst)).Nodup := by
  induction roster generalizing L with
  | nil => simpa [stageOnlinePlayers] using hkeys
  | cons q rest ih =>
      simp only [stageOnlinePlayers]
      apply ih
      by_cases h : lget L q = none
      · rw [lset_keys_absent _ _ _ h]
        have : q ∉ L.map Prod.fst := (lget_eq_none_iff L q).mp h
        simp [List.nodup_append, hkeys, this]
      · rw [lset_keys_present _ _ _ h]
        exact hkeys

/-!
Claim theorems about the wagering subsystem.
-/

/-- C7: `gamble` rejects — each precondition with its own distinct outcome and
with the ledger returned unchanged — on: a freeplay (weekend) day; a missing
ledger entry; remaining time under 5 minutes; a bet exceeding the remaining
time; a bet under 5 minutes; a multiplier not matched in the odds table.
Every rejection outcome leaves the ledger exactly as it was. -/
theorem c7_gamble_rejections (baseLimit : ℚ) (weekday : Nat) (L : Ledger)
    (u : String) (bm : ℤ) (m roll : ℚ) :
    (5 ≤ weekday →
      cmd_gamble baseLimit weekday L u bm m roll = (.rejectWeekend, L))
    ∧ (weekday < 5 → lget L u = none →
      cmd_gamble baseLimit weekday L u bm m roll = (.rejectNoSession, L))
    ∧ (∀ d : Session, weekday < 5 → lget L u = some d →
      baseLimit + d.rollover_time - d.playtime < 5 * 60 →
      cmd_gamble baseLimit weekday L u bm m roll = (.rejectLowRemaining, L))
    ∧ (∀ d : Session, weekday < 5 → lget L u = some d →
      5 * 60 ≤ baseLimit + d.rollover_time - d.playtime →
      baseLimit + d.rollover_time - d.playtime < (bm : ℚ) * 60 →
      cmd_gamble baseLimit weekday L u bm m roll = (.rejectBetOverRemaining, L))
    ∧ (∀ d : Session, weekday < 5 → lget L u = some d →
      5 * 60 ≤ baseLimit + d.rollover_time - d.playtime →
      (bm : ℚ) * 60 ≤ baseLimit + d.rollover_time - d.playtime →
      bm < 5 →
      cmd_gamble baseLimit weekday L u bm m roll = (.rejectMinBet, L))
    ∧ (∀ d : Session, weekday < 5 → lget L u = some d →
      5 * 60 ≤ baseLimit + d.rollover_time - d.playtime →
      (bm : ℚ) * 60 ≤ baseLimit + d.rollover_time - d.playtime →
      5 ≤ bm →
      findMultConfig m multipliers = none →
      cmd_gamble baseLimit weekday L u bm m roll = (.rejectBadMultiplier, L))
    ∧ (∀ o : GambleOutcome, ∀ L2 : Ledger,
      cmd_gamble baseLimit weekday L u bm m roll = (o, L2) →
      o.isReject = true → L2 = L) := by
  refine ⟨?_, ?_, ?_, ?_, ?_, ?_, ?_⟩
  · intro hw
    simp [cmd_gamble, hw]
  · intro hw hL
    simp [cmd_gamble, not_le.mpr hw, hL]
  · intro d hw hL hrem
    simp [cmd_gamble, not_le.mpr hw, hL, hrem]
  · intro d hw hL hrem hbet
    simp [cmd_gamble, not_le.mpr hw, hL, not_lt.mpr hrem, hbet]
  · intro d hw hL hrem hbet hbm
    simp [cmd_gamble, not_le.mpr hw, hL, not_lt.mpr hrem, not_lt.mpr hbet, hbm]
  · intro d hw hL hrem hbet hbm hF
    simp [cmd_gamble, not_le.mpr hw, hL, not_lt.mpr hrem, not_lt.mpr hbet,
      not_lt.mpr hbm, hF]
  · intro o L2 heq hrej
    by_cases hw : 5 ≤ weekday
    · simp [cmd_gamble, hw] at heq
      exact heq.2.symm
    · rcases hL : lget L u with _ | d
      · simp [cmd_gamble, hw, hL] at heq
        exact heq.2.symm
      · by_cases h1 : baseLimit + d.rollover_time - d.playtime < 5 * 60
        · simp [cmd_gamble, hw, hL, h1] at heq
          exact heq.2.symm
        · by_cases h2 : baseLimit + d.rollover_time - d.playtime < (bm : ℚ) * 60
          · simp [cmd_gamble, hw, hL, h1, h2] at heq
            exact heq.2.symm
          · by_cases h3 : bm < 5
            · simp [cmd_gamble, hw, hL, h1, h2, h3] at heq
              exact heq.2.symm
            · rcases hF : findMultConfig m multipliers with _ | e
              · simp [cmd_gamble, hw, hL, h1, h2, h3, hF] at heq
                exact heq.2.symm
              · by_cases h4 : roll < e.p
                · simp [cmd_gamble, hw, hL, h1, h2, h3, hF, h4] at heq
                  rw [← heq.1] at hrej
                  simp [GambleOutcome.isReject] at hrej
                · by_cases h5 : (bm : ℚ) * 60 ≤ d.rollover_time <;>
                    · simp [cmd_gamble, hw, hL, h1, h2, h3, hF, h4, h5] at heq
                      rw [← heq.1] at hrej
                      simp [GambleOutcome.isReject] at hrej

/-- C7 witness: a concrete weekend gamble is rejected with the ledger
untouched. -/
theorem c7_gamble_rejections_witness :
    cmd_gamble 10800 5 [("u", gambleSession 0 0)] "u" 5 2 (1/2)
      = (.rejectWeekend, [("u", gambleSession 0 0)]) :=
  (c7_gamble_rejections 10800 5 [("u", gambleSession 0 0)] "u" 5 2 (1/2)).1
    (by norm_num)

/-- C9: whenever a gamble resolves as a loss, the saved session still satisfies
`playtimeSeconds <= baseLimit + rolloverSeconds`: the loss can use up the
remaining time exactly but never drives it negative. -/
theorem c9_loss_never_overdraws (baseLimit : ℚ) (weekday : Nat) (L : Ledger)
    (u : String) (bm : ℤ) (m roll : ℚ) (L2 : Ledger)
    (h : cmd_gamble baseLimit weekday L u bm m roll = (.lost, L2)) :
    ∃ d2 : Session, lget L2 u = some d2
      ∧ d2.playtime ≤ baseLimit + d2.rollover_time := by
  by_cases hw : 5 ≤ weekday
  · simp [cmd_gamble, hw] at h
  · rcases hL : lget L u with _ | d
    · simp [cmd_gamble, hw, hL] at h
    · by_cases h1 : baseLimit + d.rollover_time - d.playtime < 5 * 60
      · simp [cmd_gamble, hw, hL, h1] at h
      · by_cases h2 : baseLimit + d.rollover_time - d.playtime < (bm : ℚ) * 60
        · simp [cmd_gamble, hw, hL, h1, h2] at h
        · by_cases h3 : bm < 5
          · simp [cmd_gamble, hw, hL, h1, h2, h3] at h
          · rcases hF : findMultConfig m multipliers with _ | e
            · simp [cmd_gamble, hw, hL, h1, h2, h3, hF] at h
            · by_cases h4 : roll < e.p
              · simp [cmd_gamble, hw, hL, h1, h2, h3, hF, h4] at h
              · have hb : (bm : ℚ) * 60 ≤ baseLimit + d.rollover_time - d.playtime :=
                  not_lt.mp h2
                by_cases h5 : (bm : ℚ) * 60 ≤ d.rollover_time
                · have hL2 : lset L u
                      {d with rollover_time := d.rollover_time - (bm : ℚ) * 60} = L2 := by
                    simpa [cmd_gamble, hw, hL, h1, h2, h3, hF, h4, h5] using h
                  refine ⟨_, hL2 ▸ lget_lset_self L u _, ?_⟩
                  simp only
                  linarith
                · have hL2 : lset L u
                      {d with
                        rollover_time := 0,
                        playtime := d.playtime + ((bm : ℚ) * 60 - d.rollover_time)} = L2 := by
                    simpa [cmd_gamble, hw, hL, h1, h2, h3, hF, h4, h5] using h
                  refine ⟨_, hL2 ▸ lget_lset_self L u _, ?_⟩
                  simp only
                  linarith

/-- C10: the multiplier check accepts any submitted multiplier within `0.001`
of some table entry (not only exact members), resolves the bet with that
entry's win probability, and computes a win's payout from the submitted
multiplier itself as `int(betSeconds * (m - 1))`. -/
theorem c10_multiplier_tolerance (m : ℚ) :
    (∀ e : MultEntry, findMultConfig m multipliers = some e →
      e ∈ multipliers ∧ |e.m - m| < 0.001)
    ∧ ((∃ e ∈ multipliers, |e.m - m| < 0.001) →
      (findMultConfig m multipliers).isSome = true)
    ∧ (∀ (baseLimit : ℚ) (weekday : Nat) (L : Ledger) (u : String) (bm : ℤ)
        (roll : ℚ) (d : Session) (e : MultEntry),
      weekday < 5 → lget L u = some d →
      5 * 60 ≤ baseLimit + d.rollover_time - d.playtime →
      (bm : ℚ) * 60 ≤ baseLimit + d.rollover_time - d.playtime →
      ¬bm < 5 →
      findMultConfig m multipliers = some e →
      (roll < e.p →
        (cmd_gamble baseLimit weekday L u bm m roll).1
          = .won (pyInt ((bm : ℚ) * 60 * (m - 1))))
      ∧ (e.p ≤ roll →
        (cmd_gamble baseLimit weekday L u bm m roll).1 = .lost)) := by
  refine ⟨?_, ?_, ?_⟩
  · intro e he
    exact ⟨findMultConfig_mem m multipliers e he,
      findMultConfig_dist m multipliers e he⟩
  · exact findMultConfig_isSome m multipliers
  · intro baseLimit weekday L u bm roll d e hw hL hrem hbet hbm hF
    constructor
    · intro hroll
      simp [cmd_gamble, not_le.mpr hw, hL, not_lt.mpr hrem, not_lt.mpr hbet,
        hbm, hF, hroll]
    · intro hroll
      by_cases h5 : (bm : ℚ) * 60 ≤ d.rollover_time <;>
        simp [cmd_gamble, not_le.mpr hw, hL, not_lt.mpr hrem, not_lt.mpr hbet,
          hbm, hF, not_lt.mpr hroll, h5]

/-- C10 witness: the off-table multiplier `2.0005` is accepted via the table
entry `2.00` (win probability `0.45`); a draw of `0.1` wins with the payout
computed from the submitted multiplier. -/
theorem c10_multiplier_tolerance_witness :
    (cmd_gamble 10800 1 [("u", gambleSession 0 0)] "u" 5 2.0005 0.1).1
      = .won (pyInt (((5 : ℤ) : ℚ) * 60 * ((2.0005 : ℚ) - 1))) :=
  (((c10_multiplier_tolerance 2.0005).2.2 10800 1 [("u", gambleSession 0 0)]
      "u" 5 0.1 (gambleSession 0 0) ⟨2.00, 0.45⟩
      (by norm_num) (by norm_num [lget]) (by norm_num [gambleSession])
      (by norm_num [gambleSession]) (by norm_num)
      (by norm_num [findMultConfig, multipliers, abs_lt])).1 (by norm_num))

/-- C6 counterexample: the accepted off-table multiplier `m = 2.0005` (within
the `0.001` tolerance of `2.00`) wins a 300-second bet but credits
`int(300 * 1.0005) = 300` to rollover, which differs from the exact
`b * (m - 1) = 300.15` the claim asserts. -/
theorem c6_win_credit_cex :
    (cmd_gamble 10800 1 [("u", gambleSession 0 0)] "u" 5 2.0005 0.2).1
      = .won 300
    ∧ (lget (cmd_gamble 10800 1 [("u", gambleSession 0 0)] "u" 5 2.0005
        0.2).2 "u").map Session.rollover_time = some 300
    ∧ (300 : ℚ) ≠ 5 * 60 * ((2.0005 : ℚ) - 1) := by
  refine ⟨?_, ?_, by norm_num⟩ <;>
    norm_num [cmd_gamble, lget, lset, gambleSession, findMultConfig,
      multipliers, abs_lt, pyInt]

/-- C6 (amended): an accepted gamble of `b = betMinutes * 60` seconds at
multiplier `m`, on a win, increases `rolloverSeconds` by exactly
`int(b * (m - 1))` — which equals `b * (m - 1)` whenever `m` is exactly one of
the published table multipliers — and leaves `playtimeSeconds` unchanged; on a
loss it deducts `b` from `rolloverSeconds` first, down to zero, and charges the
shortfall onto `playtimeSeconds` (e.g. rollover 0, playtime 10000, lost
300-second bet: rollover stays 0 and playtime becomes 10300). -/
theorem c6_gamble_resolution (baseLimit : ℚ) (weekday : Nat) (L : Ledger)
    (u : String) (bm : ℤ) (m roll : ℚ) (d : Session) (e : MultEntry)
    (hw : weekday < 5) (hL : lget L u = some d)
    (hrem : 5 * 60 ≤ baseLimit + d.rollover_time - d.playtime)
    (hbet : (bm : ℚ) * 60 ≤ baseLimit + d.rollover_time - d.playtime)
    (hbm : ¬bm < 5)
    (hF : findMultConfig m multipliers = some e) :
    (roll < e.p →
      ∃ d2 : Session,
        lget (cmd_gamble baseLimit weekday L u bm m roll).2 u = some d2
        ∧ d2.rollover_time
            = d.rollover_time + ((pyInt ((bm : ℚ) * 60 * (m - 1)) : ℤ) : ℚ)
        ∧ d2.playtime = d.playtime
        ∧ (m = e.m →
            ((pyInt ((bm : ℚ) * 60 * (m - 1)) : ℤ) : ℚ)
              = (bm : ℚ) * 60 * (m - 1)))
    ∧ (e.p ≤ roll →
      ∃ d2 : Session,
        lget (cmd_gamble baseLimit weekday L u bm m roll).2 u = some d2
        ∧ (cmd_gamble baseLimit weekday L u bm m roll).1 = .lost
        ∧ ((bm : ℚ) * 60 ≤ d.rollover_time →
            d2.rollover_time = d.rollover_time - (bm : ℚ) * 60
            ∧ d2.playtime = d.playtime)
        ∧ (d.rollover_time < (bm : ℚ) * 60 →
            d2.rollover_time = 0
            ∧ d2.playtime = d.playtime + ((bm : ℚ) * 60 - d.rollover_time))) := by
  constructor
  · intro hroll
    refine ⟨{d with
        rollover_time := d.rollover_time
          + ((pyInt ((bm : ℚ) * 60 * (m - 1)) : ℤ) : ℚ)}, ?_, by simp, rfl, ?_⟩
    · simp [cmd_gamble, not_le.mpr hw, hL, not_lt.mpr hrem, not_lt.mpr hbet,
        hbm, hF, hroll, lget_lset_self]
    · intro hm
      rcases multipliers_payout_int e (findMultConfig_mem m multipliers e hF)
        with ⟨c, hc⟩
      have h1 : (bm : ℚ) * 60 * (m - 1) = ((bm * c : ℤ) : ℚ) := by
        subst hm
        push_cast
        rw [← hc]
        ring
      rw [h1, pyInt_intCast]
  · intro hroll
    by_cases h5 : (bm : ℚ) * 60 ≤ d.rollover_time
    · refine ⟨{d with rollover_time := d.rollover_time - (bm : ℚ) * 60},
        ?_, ?_, fun _ => ⟨rfl, rfl⟩, fun hcon => absurd h5 (not_le.mpr hcon)⟩
      · simp [cmd_gamble, not_le.mpr hw, hL, not_lt.mpr hrem, not_lt.mpr hbet,
          hbm, hF, not_lt.mpr hroll, h5, lget_lset_self]
      · simp [cmd_gamble, not_le.mpr hw, hL, not_lt.mpr hrem, not_lt.mpr hbet,
          hbm, hF, not_lt.mpr hroll, h5]
    · refine ⟨{d with
          rollover_time := 0,
          playtime := d.playtime + ((bm : ℚ) * 60 - d.rollover_time)},
        ?_, ?_, fun hcon => absurd hcon h5, fun _ => ⟨rfl, rfl⟩⟩
      · simp [cmd_gamble, not_le.mpr hw, hL, not_lt.mpr hrem, not_lt.mpr hbet,
          hbm, hF, not_lt.mpr hroll, h5, lget_lset_self]
      · simp [cmd_gamble, not_le.mpr hw, hL, not_lt.mpr hrem, not_lt.mpr hbet,
          hbm, hF, not_lt.mpr hroll, h5]

/-- C6 witness: the spec's example scenario — base limit 10800, rollover 0,
playtime 10000, a lost 5-minute bet at multiplier 2.0 (draw 0.5 ≥ 0.45) —
leaves rollover at 0 and playtime at 10300. -/
theorem c6_gamble_resolution_witness :
    ∃ d2 : Session,
      lget (cmd_gamble 10800 1 [("u", gambleSession 10000 0)] "u" 5 2.00
        0.5).2 "u" = some d2
      ∧ (cmd_gamble 10800 1 [("u", gambleSession 10000 0)] "u" 5 2.00 0.5).1
          = .lost
      ∧ (((5 : ℤ) : ℚ) * 60 ≤ (gambleSession 10000 0).rollover_time →
          d2.rollover_time = (gambleSession 10000 0).rollover_time
              - ((5 : ℤ) : ℚ) * 60
          ∧ d2.playtime = (gambleSession 10000 0).playtime)
      ∧ ((gambleSession 10000 0).rollover_time < ((5 : ℤ) : ℚ) * 60 →
          d2.rollover_time = 0
          ∧ d2.playtime = (gambleSession 10000 0).playtime
              + (((5 : ℤ) : ℚ) * 60 - (gambleSession 10000 0).rollover_time)) :=
  (c6_gamble_resolution 10800 1 [("u", gambleSession 10000 0)] "u" 5 2.00 0.5
      (gambleSession 10000 0) ⟨2.00, 0.45⟩
      (by norm_num) (by norm_num [lget]) (by norm_num [gambleSession])
      (by norm_num [gambleSession]) (by norm_num)
      (by norm_num [findMultConfig, multipliers, abs_lt])).2 (by norm_num)

/-!
Non-negativity preservation (C8).
-/

theorem lget_mem (L : Ledger) (p : String) (s : Session)
    (h : lget L p = some s) : (p, s) ∈ L := by
  induction L with
  | nil => simp [lget] at h
  | cons e rest ih =>
      obtain ⟨q, t⟩ := e
      by_cases hq : q = p
      · subst hq
        have h' : t = s := by simpa [lget] using h
        subst h'
        exact List.mem_cons_self _ _
      · simp only [lget, hq, if_false] at h
        exact List.mem_cons_of_mem _ (ih h)

theorem mem_lset (L : Ledger) (p : String) (s : Session)
    (e : String × Session) (h : e ∈ lset L p s) : e = (p, s) ∨ e ∈ L := by
  induction L with
  | nil => simpa [lset] using h
  | cons x rest ih =>
      obtain ⟨q, t⟩ := x
      by_cases hq : q = p
      · simp only [lset, hq, if_pos rfl] at h
        rcases List.mem_cons.mp h with rfl | h'
        · exact Or.inl rfl
        · exact Or.inr (List.mem_cons_of_mem _ h')
      · simp only [lset, hq, if_false] at h
        rcases List.mem_cons.mp h with rfl | h'
        · exact Or.inr (List.mem_cons_self _ _)
        · rcases ih h' with h'' | h''
          · exact Or.inl h''
          · exact Or.inr (List.mem_cons_of_mem _ h'')

theorem lmap_preserves (P : Session → Prop) (g : String → Session → Session)
    (L : Ledger) (hg : ∀ q s, P s → P (g q s))
    (hL : ∀ e ∈ L, P e.2) : ∀ e ∈ lmap g L, P e.2 := by
  intro e he
  rcases List.mem_map.mp he with ⟨x, hx, rfl⟩
  exact hg x.1 x.2 (hL x hx)

theorem mapCollect_preserves (P : Session → Prop)
    (f : String → Session → Session × List Eff) (L : Ledger)
    (hf : ∀ q s, P s → P (f q s).1)
    (hL : ∀ e ∈ L, P e.2) : ∀ e ∈ (mapCollect f L).1, P e.2 := by
  induction L with
  | nil => simp [mapCollect]
  | cons x rest ih =>
      obtain ⟨q, t⟩ := x
      intro e he
      simp only [mapCollect] at he
      rcases List.mem_cons.mp he with rfl | he'
      · exact hf q t (hL (q, t) (List.mem_cons_self _ _))
      · exact ih (fun y hy => hL y (List.mem_cons_of_mem _ hy)) e he'

theorem handleOnlinePlayer_preserves_nonneg (baseLimit now : ℚ)
    (isFreeplay : Bool) (p : String) (s : Session) (h : NonnegSession s) :
    NonnegSession (handleOnlinePlayer baseLimit now isFreeplay p s).1 := by
  obtain ⟨h1, h2⟩ := h
  simp only [handleOnlinePlayer, NonnegSession]
  split_ifs with hw hb hd <;> simp only <;>
    first
      | exact ⟨h1, h2⟩
      | (rename_i hd'; exact ⟨by linarith, h2⟩)
      | exact ⟨le_max_left 0 s.playtime, h2⟩

theorem enforcePlayer_preserves_nonneg (baseLimit now : ℚ) (p : String)
    (s : Session) (h : NonnegSession s) :
    NonnegSession (enforcePlayer baseLimit now p s).1 := by
  obtain ⟨h1, h2⟩ := h
  simp only [enforcePlayer, NonnegSession]
  split_ifs <;> simp only
  · exact ⟨le_refl 0, h2⟩
  · exact ⟨le_max_left 0 s.playtime, h2⟩

theorem stageOnlinePlayers_preserves_nonneg (baseLimit now : ℚ) (today : Nat)
    (isFreeplay : Bool) (roster : List String) (L : Ledger)
    (hL : ∀ e ∈ L, NonnegSession e.2) :
    ∀ e ∈ (stageOnlinePlayers baseLimit now today isFreeplay roster L).1,
      NonnegSession e.2 := by
  induction roster generalizing L with
  | nil => exact hL
  | cons q rest ih =>
      simp only [stageOnlinePlayers]
      apply ih
      intro e he
      rcases mem_lset _ _ _ e he with rfl | he'
      · apply handleOnlinePlayer_preserves_nonneg
        rcases hs : lget L q with _ | s
        · simp [hs, freshSession, NonnegSession]
        · simpa [hs] using hL (q, s) (lget_mem L q s hs)
      · exact hL e he'

/-- C8 counterexample: `!addtime` with a negative minutes argument drives
`rolloverSeconds` negative — the code has no clamp (lines 415-429 of
`command_handler.py`). -/
theorem c8_addtime_negative_cex :
    (lget (cmd_addtime [("a", gambleSession 0 0)] "a" (-10)) "a").map
      Session.rollover_time = some (-600)
    ∧ ¬(0 ≤ (-600 : ℚ)) := by
  norm_num [cmd_addtime, lget, lset, gambleSession]

/-- C8 (amended): every ledger-mutating operation except a rollover-exceeding
negative `addtime` preserves `playtimeSeconds >= 0` and
`rolloverSeconds >= 0` for every session: a full session cycle, a gamble,
`resettime` and `unban` preserve both invariants unconditionally, and
`addtime` preserves them for any non-negative minutes argument (a negative
argument exceeding the current rollover violates them, see the
counterexample). -/
theorem c8_nonneg_amended :
    (∀ (baseLimit : ℚ) (freeplayDays : Nat → Bool) (now : ℚ)
       (today weekday : Nat) (roster : List String) (file : Ledger)
       (es : EngineState),
      (∀ e ∈ file, NonnegSession e.2) →
      ∀ e ∈ (session_cycle baseLimit freeplayDays now today weekday roster
        file es).1, NonnegSession e.2)
    ∧ (∀ (baseLimit : ℚ) (weekday : Nat) (L : Ledger) (u : String) (bm : ℤ)
        (m roll : ℚ),
      (∀ e ∈ L, NonnegSession e.2) →
      ∀ e ∈ (cmd_gamble baseLimit weekday L u bm m roll).2,
        NonnegSession e.2)
    ∧ (∀ (L : Ledger) (target : String) (minutes : ℚ), 0 ≤ minutes →
      (∀ e ∈ L, NonnegSession e.2) →
      ∀ e ∈ cmd_addtime L target minutes, NonnegSession e.2)
    ∧ (∀ (L : Ledger) (target : String),
      (∀ e ∈ L, NonnegSession e.2) →
      ∀ e ∈ cmd_resettime L target, NonnegSession e.2)
    ∧ (∀ (L : Ledger) (target : String),
      (∀ e ∈ L, NonnegSession e.2) →
      ∀ e ∈ cmd_unban L target, NonnegSession e.2) := by
  refine ⟨?_, ?_, ?_, ?_, ?_⟩
  · intro baseLimit freeplayDays now today weekday roster file es hfile
    have hfile1 : ∀ e ∈ (if es.first_cycle then
        lmap (fun _ d => {d with online := false, last_checked := now}) file
        else file), NonnegSession e.2 := by
      split_ifs
      · exact lmap_preserves _ _ _ (fun q s hs => hs) hfile
      · exact hfile
    intro e he
    simp only [session_cycle, stageMarkOffline] at he
    cases hfp : freeplayDays weekday with
    | true =>
        rw [hfp] at he
        simp only [if_true] at he
        exact lmap_preserves _ _ _ (fun q s hs => by split_ifs <;> exact hs)
          (stageOnlinePlayers_preserves_nonneg _ _ _ _ _ _ hfile1) e he
    | false =>
        rw [hfp] at he
        simp only [Bool.false_eq_true, if_false] at he
        exact mapCollect_preserves _ _ _
          (fun q s hs => enforcePlayer_preserves_nonneg _ _ q s hs)
          (lmap_preserves _ _ _ (fun q s hs => by split_ifs <;> exact hs)
            (stageOnlinePlayers_preserves_nonneg _ _ _ _ _ _ hfile1)) e he
  · intro baseLimit weekday L u bm m roll hL
    by_cases hw : 5 ≤ weekday
    · simpa [cmd_gamble, hw] using hL
    · rcases hd : lget L u with _ | d
      · simpa [cmd_gamble, hw, hd] using hL
      · have hdP : NonnegSession d := hL (u, d) (lget_mem L u d hd)
        by_cases h1 : baseLimit + d.rollover_time - d.playtime < 5 * 60
        · simpa [cmd_gamble, hw, hd, h1] using hL
        · by_cases h2 : baseLimit + d.rollover_time - d.playtime < (bm : ℚ) * 60
          · simpa [cmd_gamble, hw, hd, h1, h2] using hL
          · by_cases h3 : bm < 5
            · simpa [cmd_gamble, hw, hd, h1, h2, h3] using hL
            · rcases hF : findMultConfig m multipliers with _ | e
              · simpa [cmd_gamble, hw, hd, h1, h2, h3, hF] using hL
              · have hmem := findMultConfig_mem m multipliers e hF
                have hdist := findMultConfig_dist m multipliers e hF
                have hm1 : (1 : ℚ) < m := by
                  have := multipliers_one_lt e hmem
                  have habs := abs_lt.mp hdist
                  norm_num at habs this ⊢
                  linarith [habs.1]
                have hbm5 : (5 : ℚ) ≤ (bm : ℚ) := by exact_mod_cast not_lt.mp h3
                by_cases h4 : roll < e.p
                · have hwin : (0 : ℤ) ≤ pyInt ((bm : ℚ) * 60 * (m - 1)) := by
                    apply pyInt_nonneg
                    have : (0 : ℚ) ≤ (bm : ℚ) * 60 := by linarith
                    nlinarith
                  intro x hx
                  have hx' : x ∈ lset L u
                      {d with rollover_time := d.rollover_time
                        + ((pyInt ((bm : ℚ) * 60 * (m - 1)) : ℤ) : ℚ)} := by
                    revert hx
                    simp [cmd_gamble, hw, hd, h1, h2, h3, hF, h4]
                  rcases mem_lset _ _ _ x hx' with rfl | hxL
                  · refine ⟨hdP.1, ?_⟩
                    simp only
                    have : (0 : ℚ) ≤ ((pyInt ((bm : ℚ) * 60 * (m - 1)) : ℤ) : ℚ) := by
                      exact_mod_cast hwin
                    linarith [hdP.2]
                  · exact hL x hxL
                · by_cases h5 : (bm : ℚ) * 60 ≤ d.rollover_time
                  · intro x hx
                    have hx' : x ∈ lset L u
                        {d with rollover_time := d.rollover_time - (bm : ℚ) * 60} := by
                      revert hx
                      simp [cmd_gamble, hw, hd, h1, h2, h3, hF, h4, h5]
                    rcases mem_lset _ _ _ x hx' with rfl | hxL
                    · exact ⟨hdP.1, by simp only; linarith⟩
                    · exact hL x hxL
                  · intro x hx
                    have hx' : x ∈ lset L u
                        {d with
                          rollover_time := 0,
                          playtime := d.playtime
                            + ((bm : ℚ) * 60 - d.rollover_time)} := by
                      revert hx
                      simp [cmd_gamble, hw, hd, h1, h2, h3, hF, h4, h5]
                    rcases mem_lset _ _ _ x hx' with rfl | hxL
                    · refine ⟨?_, le_refl 0⟩
                      simp only
                      have := not_le.mp h5
                      linarith [hdP.1]
                    · exact hL x hxL
  · intro L target minutes hmin hL
    simp only [cmd_addtime]
    rcases hd : lget L target with _ | d
    · exact hL
    · have hdP : NonnegSession d := hL (target, d) (lget_mem L target d hd)
      intro x hx
      rcases mem_lset _ _ _ x hx with rfl | hxL
      · refine ⟨hdP.1, ?_⟩
        simp only
        have : (0 : ℚ) ≤ minutes * 60 := by linarith
        linarith [hdP.2]
      · exact hL x hxL
  · intro L target hL
    simp only [cmd_resettime]
    rcases hd : lget L target with _ | d
    · exact hL
    · intro x hx
      rcases mem_lset _ _ _ x hx with rfl | hxL
      · exact ⟨le_refl 0, le_refl 0⟩
      · exact hL x hxL
  · intro L target hL
    simp only [cmd_unban]
    rcases hd : lget L target with _ | d
    · exact hL
    · have hdP : NonnegSession d := hL (target, d) (lget_mem L target d hd)
      intro x hx
      rcases mem_lset _ _ _ x hx with rfl | hxL
      · exact hdP
      · exact hL x hxL

/-- C8 witness: a concrete non-negative `addtime` keeps both fields
non-negative. -/
theorem c8_nonneg_amended_witness :
    NonnegSession
      {gambleSession 5 7 with
        rollover_time := (gambleSession 5 7).rollover_time + 3 * 60} :=
  c8_nonneg_amended.2.2.1 [("a", gambleSession 5 7)] "a" 3 (by norm_num)
    (by
      intro e he
      simp only [List.mem_singleton] at he
      subst he
      exact ⟨by norm_num [gambleSession], by norm_num [gambleSession]⟩)
    ("a", {gambleSession 5 7 with
      rollover_time := (gambleSession 5 7).rollover_time + 3 * 60})
    (by simp [cmd_addtime, lget, lset])

/-- C9 witness: the concrete losing gamble of the example scenario leaves the
saved session within its limit. -/
theorem c9_loss_never_overdraws_witness :
    ∃ d2 : Session,
      lget (cmd_gamble 10800 1 [("u", gambleSession 10000 0)] "u" 5 2
        0.5).2 "u" = some d2
      ∧ d2.playtime ≤ 10800 + d2.rollover_time :=
  c9_loss_never_overdraws 10800 1 [("u", gambleSession 10000 0)] "u" 5 2 0.5
    (cmd_gamble 10800 1 [("u", gambleSession 10000 0)] "u" 5 2 0.5).2
    (by norm_num [cmd_gamble, lget, lset, gambleSession, findMultConfig,
      multipliers, abs_lt])

/-!
Claim theorems about the cycle engine.
-/

/-- C1: the daily reset (lines 81-123) does grant
`rolloverSeconds += max(0, baseLimit - playtimeSeconds)` — here `+ baseLimit`
for yesterday's playtime 0 — but the grant is NOT present in the ledger saved
at the end of the same cycle: the `load_sessions()` at line 148 re-reads the
snapshot before the reset was ever saved, so the saved entry still has
`rolloverSeconds = 0` and the stale `sessionDate`. -/
theorem c1_rollover_grant_discarded :
    (dailyResetPlayer 10800 100 3 1 [] "alice" c1Session).1.rollover_time
      = c1Session.rollover_time + max 0 (10800 - c1Session.playtime)
    ∧ (dailyResetPlayer 10800 100 3 1 [] "alice" c1Session).1.rollover_time
      = 10800
    ∧ (lget (session_cycle 10800 weekendFreeplay 100 3 1 []
        [("alice", c1Session)] ⟨false, false⟩).1 "alice").map
        Session.rollover_time = some 0
    ∧ (lget (session_cycle 10800 weekendFreeplay 100 3 1 []
        [("alice", c1Session)] ⟨false, false⟩).1 "alice").map
        Session.session_date = some 2 := by
  refine ⟨?_, ?_, ?_, ?_⟩ <;>
    norm_num [c1Session, dailyResetPlayer, session_cycle, stageDailyReset,
      stageFreeplayTransition, stageOnlinePlayers, stageMarkOffline,
      mapCollect, lmap, lget, lset, enforcePlayer, announceScan, thresholds,
      Announcements.get, Announcements.set, Announcements.allFalse,
      weekdayStartResetPlayer, handleOnlinePlayer, freshSession,
      weekendFreeplay]

/-- C2: the daily reset is NOT idempotent within one calendar day: after a
cycle on day 3, the persisted `sessionDate` of a player whose entry predates
today is still the stale day 2 (the reset's update was discarded by the reload
at line 148), so a second cycle on day 3 re-enters the daily-reset branch for
the same player, observable by the `pardon` command being issued again. -/
theorem c2_daily_reset_not_idempotent :
    (lget c2run1.1 "alice").map Session.session_date = some 2
    ∧ (2 : Nat) ≠ 3
    ∧ Eff.pardonCmd "alice" ∈ c2run1.2.2
    ∧ Eff.pardonCmd "alice" ∈ c2run2.2.2
    ∧ (lget c2run2.1 "alice").map Session.session_date = some 2 := by
  refine ⟨?_, by norm_num, ?_, ?_, ?_⟩ <;>
    norm_num [c2run1, c2run2, c2Session, c1Session, dailyResetPlayer,
      session_cycle, stageDailyReset, stageFreeplayTransition,
      stageOnlinePlayers, stageMarkOffline, mapCollect, lmap, lget, lset,
      enforcePlayer, announceScan, thresholds, Announcements.get,
      Announcements.set, Announcements.allFalse, weekdayStartResetPlayer,
      handleOnlinePlayer, freshSession, weekendFreeplay]

set_option maxRecDepth 400000 in
set_option maxHeartbeats 4000000 in
/-- C5: the "1min" announcement label fires twice within one session-day.  The
session-day (glossary: the window identified by `sessionDate`) never ends
because the reload at line 148 discards the daily reset's `sessionDate`
update; the Friday ban clears the announcement flags, freeplay accrual with
`banned = true` (line 183 gates the ban-evasion branch on non-freeplay days
only) re-consumes the quota, and Monday's enforcement scan fires "1min" a
second time with `sessionDate` still at Friday's value 500. -/
theorem c5_label_refires_within_session_day :
    Eff.announceThreshold "p" Label.oneMin ∈ c5run1.2.2
    ∧ Eff.announceThreshold "p" Label.oneMin ∈ c5run4.2.2
    ∧ (lget c5run1.1 "p").map Session.session_date = some 500
    ∧ (lget c5run4.1 "p").map Session.session_date = some 500 := by
  norm_num [c5run4, c5run3, c5run2, c5run1, c5Session, runCycles,
    List.range_succ, dailyResetPlayer, session_cycle, stageDailyReset,
    stageFreeplayTransition, stageOnlinePlayers, stageMarkOffline,
    mapCollect, lmap, lget, lset, enforcePlayer, announceScan, thresholds,
    Announcements.get, Announcements.set, Announcements.allFalse,
    weekdayStartResetPlayer, handleOnlinePlayer, freshSession,
    weekendFreeplay]

/-- One non-freeplay cycle over an online, unbanned player with a gap in
`(0, 120]` charges exactly the gap and touches nothing else (except the
announcement flags). -/
theorem cycle_accrual_step (baseLimit : ℚ) (cal : Nat → Bool) (now : ℚ)
    (today weekday : Nat) (roster : List String) (file : Ledger)
    (es : EngineState) (p : String) (s : Session)
    (hcal : cal weekday = false) (hnd : roster.Nodup) (hmem : p ∈ roster)
    (hfc : es.first_cycle = false) (hs : lget file p = some s)
    (hon : s.online = true) (hban : s.banned = false) (hpt : 0 ≤ s.playtime)
    (hd0 : 0 < now - s.last_checked) (hd1 : now - s.last_checked ≤ 120)
    (hlim : s.playtime + (now - s.last_checked)
      < baseLimit + s.rollover_time) :
    ∃ a : Announcements,
      lget (session_cycle baseLimit cal now today weekday roster file es).1 p
        = some {s with
            online := true,
            playtime := s.playtime + (now - s.last_checked),
            last_checked := now,
            announcements := a} := by
  rw [session_cycle_lget_mem _ _ _ _ _ _ _ _ _ hfc hnd hmem, hs]
  simp only [Option.getD_some, hcal, Bool.false_eq_true, if_false]
  rw [handleOnlinePlayer_accrue _ _ _ _ _ hon hban hd0 hd1]
  have hmax : max 0 (s.playtime + (now - s.last_checked))
      = s.playtime + (now - s.last_checked) :=
    max_eq_right (by linarith)
  rw [enforcePlayer_noBan _ _ _ _ (by simpa [hmax] using hlim)]
  refine ⟨(announceScan (baseLimit + s.rollover_time
      - (s.playtime + (now - s.last_checked))) thresholds
      s.announcements).1, ?_⟩
  simp [hmax]

/-- Iterated accrual: `k` consecutive non-freeplay cycles with positive gaps
of at most 120 seconds, staying under the limit, charge exactly the sum of
the gaps. -/
theorem accrual_run (baseLimit : ℚ) (cal : Nat → Bool) (today weekday : Nat)
    (roster : List String) (p : String)
    (hcal : cal weekday = false) (hnd : roster.Nodup) (hmem : p ∈ roster) :
    ∀ (ds : List ℚ) (file : Ledger) (es : EngineState) (s : Session),
      es.first_cycle = false → lget file p = some s →
      s.online = true → s.banned = false → 0 ≤ s.playtime →
      (∀ d ∈ ds, 0 < d ∧ d ≤ 120) →
      s.playtime + ds.sum < baseLimit + s.rollover_time →
      ∃ s2 : Session,
        lget (runCycles baseLimit cal today weekday roster
          (cycleTimes s.last_checked ds) (file, es)).1 p = some s2
        ∧ s2.playtime = s.playtime + ds.sum
        ∧ s2.rollover_time = s.rollover_time
        ∧ s2.online = true ∧ s2.banned = false := by
  intro ds
  induction ds with
  | nil =>
      intro file es s hfc hs hon hban hpt hds hlim
      exact ⟨s, by simpa [cycleTimes, runCycles] using hs, by simp, rfl,
        hon, hban⟩
  | cons d rest ih =>
      intro file es s hfc hs hon hban hpt hds hlim
      obtain ⟨hd0, hd1⟩ := hds d (List.mem_cons_self d rest)
      have hrest0 : 0 ≤ rest.sum :=
        List.sum_nonneg (fun x hx =>
          le_of_lt (hds x (List.mem_cons_of_mem d hx)).1)
      have hsum : (d :: rest).sum = d + rest.sum := List.sum_cons
      have hδ : s.last_checked + d - s.last_checked = d := by ring
      obtain ⟨a, hstep⟩ := cycle_accrual_step baseLimit cal
        (s.last_checked + d) today weekday roster file es p s hcal hnd hmem
        hfc hs hon hban hpt (by rw [hδ]; exact hd0) (by rw [hδ]; exact hd1)
        (by rw [hδ]; rw [hsum] at hlim; linarith)
      obtain ⟨s2, h2, hpt2, hro2, hon2, hban2⟩ := ih
        (session_cycle baseLimit cal (s.last_checked + d) today weekday
          roster file es).1
        (session_cycle baseLimit cal (s.last_checked + d) today weekday
          roster file es).2.1
        {s with
          online := true,
          playtime := s.playtime + (s.last_checked + d - s.last_checked),
          last_checked := s.last_checked + d,
          announcements := a}
        (session_cycle_first_cycle_false _ _ _ _ _ _ _ _) hstep rfl hban
        (by
          show 0 ≤ s.playtime + (s.last_checked + d - s.last_checked)
          rw [hδ]
          linarith)
        (fun x hx => hds x (List.mem_cons_of_mem d hx))
        (by
          show s.playtime + (s.last_checked + d - s.last_checked) + rest.sum
            < baseLimit + s.rollover_time
          rw [hδ]
          rw [hsum] at hlim
          linarith)
      refine ⟨s2, ?_, ?_, ?_, hon2, hban2⟩
      · simpa [cycleTimes, runCycles] using h2
      · rw [hpt2]
        show s.playtime + (s.last_checked + d - s.last_checked) + rest.sum
          = s.playtime + (d :: rest).sum
        rw [hδ, hsum]
        ring
      · rw [hro2]

/-- One non-freeplay cycle over a freshly logging-in (offline) unbanned player
under the limit charges nothing: only the clamp `max 0` touches playtime. -/
theorem cycle_login_step (baseLimit : ℚ) (cal : Nat → Bool) (now : ℚ)
    (today weekday : Nat) (roster : List String) (file : Ledger)
    (es : EngineState) (p : String) (s : Session)
    (hcal : cal weekday = false) (hnd : roster.Nodup) (hmem : p ∈ roster)
    (hfc : es.first_cycle = false) (hs : lget file p = some s)
    (hoff : s.online = false) (_hban : s.banned = false) (hpt : 0 ≤ s.playtime)
    (hlim : s.playtime < baseLimit + s.rollover_time) :
    ∃ a : Announcements,
      lget (session_cycle baseLimit cal now today weekday roster file es).1 p
        = some {s with
            online := true,
            playtime := s.playtime,
            last_checked := now,
            announcements := a} := by
  have hmax : max 0 s.playtime = s.playtime := max_eq_right hpt
  rw [session_cycle_lget_mem _ _ _ _ _ _ _ _ _ hfc hnd hmem, hs]
  simp only [Option.getD_some, hcal, Bool.false_eq_true, if_false]
  rw [handleOnlinePlayer_login _ _ _ _ _ hoff]
  simp only [Bool.false_eq_true, if_false]
  rw [enforcePlayer_noBan _ _ _ _ (by simp only [hmax]; simpa [hmax] using hlim)]
  refine ⟨(announceScan (baseLimit + s.rollover_time - max 0 s.playtime)
      thresholds s.announcements).1, ?_⟩
  simp [hmax]

/-- One non-freeplay cycle over an online, unbanned player with a gap above
120 seconds charges exactly 60 seconds. -/
theorem cycle_capped_step (baseLimit : ℚ) (cal : Nat → Bool) (now : ℚ)
    (today weekday : Nat) (roster : List String) (file : Ledger)
    (es : EngineState) (p : String) (s : Session)
    (hcal : cal weekday = false) (hnd : roster.Nodup) (hmem : p ∈ roster)
    (hfc : es.first_cycle = false) (hs : lget file p = some s)
    (hon : s.online = true) (hban : s.banned = false) (hpt : 0 ≤ s.playtime)
    (hd : 120 < now - s.last_checked)
    (hlim : s.playtime + 60 < baseLimit + s.rollover_time) :
    ∃ a : Announcements,
      lget (session_cycle baseLimit cal now today weekday roster file es).1 p
        = some {s with
            online := true,
            playtime := s.playtime + 60,
            last_checked := now,
            announcements := a} := by
  have hmax : max 0 (s.playtime + 60) = s.playtime + 60 :=
    max_eq_right (by linarith)
  rw [session_cycle_lget_mem _ _ _ _ _ _ _ _ _ hfc hnd hmem, hs]
  simp only [Option.getD_some, hcal, Bool.false_eq_true, if_false]
  rw [handleOnlinePlayer_capped _ _ _ _ _ hon hban hd]
  rw [enforcePlayer_noBan _ _ _ _ (by simpa [hmax] using hlim)]
  refine ⟨(announceScan (baseLimit + s.rollover_time - (s.playtime + 60))
      thresholds s.announcements).1, ?_⟩
  simp [hmax]

/-- One non-freeplay cycle over an online, unbanned player with a negative gap
charges nothing. -/
theorem cycle_negative_step (baseLimit : ℚ) (cal : Nat → Bool) (now : ℚ)
    (today weekday : Nat) (roster : List String) (file : Ledger)
    (es : EngineState) (p : String) (s : Session)
    (hcal : cal weekday = false) (hnd : roster.Nodup) (hmem : p ∈ roster)
    (hfc : es.first_cycle = false) (hs : lget file p = some s)
    (hon : s.online = true) (hban : s.banned = false) (hpt : 0 ≤ s.playtime)
    (hd : now - s.last_checked < 0)
    (hlim : s.playtime < baseLimit + s.rollover_time) :
    ∃ a : Announcements,
      lget (session_cycle baseLimit cal now today weekday roster file es).1 p
        = some {s with
            online := true,
            playtime := s.playtime,
            last_checked := now,
            announcements := a} := by
  have hmax : max 0 s.playtime = s.playtime := max_eq_right hpt
  rw [session_cycle_lget_mem _ _ _ _ _ _ _ _ _ hfc hnd hmem, hs]
  simp only [Option.getD_some, hcal, Bool.false_eq_true, if_false]
  rw [handleOnlinePlayer_negative _ _ _ _ _ hon hban hd]
  rw [enforcePlayer_noBan _ _ _ _ (by simpa [hmax] using hlim)]
  refine ⟨(announceScan (baseLimit + s.rollover_time - s.playtime)
      thresholds s.announcements).1, ?_⟩
  simp [hmax]

/-- C3: over one non-freeplay session-day, for a continuously online, never
banned player, (1) `k` consecutive cycles with gaps `0 < d_i < 120` increase
`playtimeSeconds` by exactly `sum d_i` and not more; (2) the cycle of the
offline-to-online transition adds 0 regardless of the offline gap's length;
(3) an already-online player's gap above 120 seconds is charged as 60
seconds; (4) a negative gap is charged as 0. -/
theorem c3_playtime_accrual :
    (∀ (baseLimit : ℚ) (cal : Nat → Bool) (today weekday : Nat)
       (roster : List String) (p : String) (ds : List ℚ) (file : Ledger)
       (es : EngineState) (s : Session),
      cal weekday = false → roster.Nodup → p ∈ roster →
      es.first_cycle = false → lget file p = some s →
      s.online = true → s.banned = false → 0 ≤ s.playtime →
      (∀ d ∈ ds, 0 < d ∧ d < 120) →
      s.playtime + ds.sum < baseLimit + s.rollover_time →
      ∃ s2 : Session,
        lget (runCycles baseLimit cal today weekday roster
          (cycleTimes s.last_checked ds) (file, es)).1 p = some s2
        ∧ s2.playtime = s.playtime + ds.sum
        ∧ s2.rollover_time = s.rollover_time
        ∧ s2.online = true ∧ s2.banned = false)
    ∧ (∀ (baseLimit : ℚ) (cal : Nat → Bool) (now : ℚ) (today weekday : Nat)
        (roster : List String) (file : Ledger) (es : EngineState)
        (p : String) (s : Session),
      cal weekday = false → roster.Nodup → p ∈ roster →
      es.first_cycle = false → lget file p = some s →
      s.online = false → s.banned = false → 0 ≤ s.playtime →
      s.playtime < baseLimit + s.rollover_time →
      ∃ s2 : Session,
        lget (session_cycle baseLimit cal now today weekday roster file
          es).1 p = some s2
        ∧ s2.playtime = s.playtime ∧ s2.online = true)
    ∧ (∀ (baseLimit : ℚ) (cal : Nat → Bool) (now : ℚ) (today weekday : Nat)
        (roster : List String) (file : Ledger) (es : EngineState)
        (p : String) (s : Session),
      cal weekday = false → roster.Nodup → p ∈ roster →
      es.first_cycle = false → lget file p = some s →
      s.online = true → s.banned = false → 0 ≤ s.playtime →
      120 < now - s.last_checked →
      s.playtime + 60 < baseLimit + s.rollover_time →
      ∃ s2 : Session,
        lget (session_cycle baseLimit cal now today weekday roster file
          es).1 p = some s2
        ∧ s2.playtime = s.playtime + 60)
    ∧ (∀ (baseLimit : ℚ) (cal : Nat → Bool) (now : ℚ) (today weekday : Nat)
        (roster : List String) (file : Ledger) (es : EngineState)
        (p : String) (s : Session),
      cal weekday = false → roster.Nodup → p ∈ roster →
      es.first_cycle = false → lget file p = some s →
      s.online = true → s.banned = false → 0 ≤ s.playtime →
      now - s.last_checked < 0 →
      s.playtime < baseLimit + s.rollover_time →
      ∃ s2 : Session,
        lget (session_cycle baseLimit cal now today weekday roster file
          es).1 p = some s2
        ∧ s2.playtime = s.playtime) := by
  refine ⟨?_, ?_, ?_, ?_⟩
  · intro baseLimit cal today weekday roster p ds file es s hcal hnd hmem hfc
      hs hon hban hpt hds hlim
    exact accrual_run baseLimit cal today weekday roster p hcal hnd hmem ds
      file es s hfc hs hon hban hpt
      (fun d hd => ⟨(hds d hd).1, le_of_lt (hds d hd).2⟩) hlim
  · intro baseLimit cal now today weekday roster file es p s hcal hnd hmem hfc
      hs hoff hban hpt hlim
    obtain ⟨a, h⟩ := cycle_login_step baseLimit cal now today weekday roster
      file es p s hcal hnd hmem hfc hs hoff hban hpt hlim
    exact ⟨_, h, rfl, rfl⟩
  · intro baseLimit cal now today weekday roster file es p s hcal hnd hmem hfc
      hs hon hban hpt hd hlim
    obtain ⟨a, h⟩ := cycle_capped_step baseLimit cal now today weekday roster
      file es p s hcal hnd hmem hfc hs hon hban hpt hd hlim
    exact ⟨_, h, rfl⟩
  · intro baseLimit cal now today weekday roster file es p s hcal hnd hmem hfc
      hs hon hban hpt hd hlim
    obtain ⟨a, h⟩ := cycle_negative_step baseLimit cal now today weekday
      roster file es p s hcal hnd hmem hfc hs hon hban hpt hd hlim
    exact ⟨_, h, rfl⟩

/-- C3 witness: concrete instances of all four accrual behaviors. -/
theorem c3_playtime_accrual_witness :
    (∃ s2 : Session,
      lget (runCycles 10800 weekendFreeplay 3 1 ["p"]
        (cycleTimes (gambleSession 0 0).last_checked [50, 60])
        ([("p", gambleSession 0 0)], ⟨false, false⟩)).1 "p" = some s2
      ∧ s2.playtime = (gambleSession 0 0).playtime + ([50, 60] : List ℚ).sum
      ∧ s2.rollover_time = (gambleSession 0 0).rollover_time
      ∧ s2.online = true ∧ s2.banned = false)
    ∧ (∃ s2 : Session,
      lget (session_cycle 10800 weekendFreeplay 700 3 1 ["p"]
        [("p", {gambleSession 5 0 with online := false})] ⟨false, false⟩).1
        "p" = some s2
      ∧ s2.playtime = ({gambleSession 5 0 with online := false} : Session).playtime
      ∧ s2.online = true)
    ∧ (∃ s2 : Session,
      lget (session_cycle 10800 weekendFreeplay 1000 3 1 ["p"]
        [("p", gambleSession 0 0)] ⟨false, false⟩).1 "p" = some s2
      ∧ s2.playtime = (gambleSession 0 0).playtime + 60)
    ∧ (∃ s2 : Session,
      lget (session_cycle 10800 weekendFreeplay (-5) 3 1 ["p"]
        [("p", gambleSession 0 0)] ⟨false, false⟩).1 "p" = some s2
      ∧ s2.playtime = (gambleSession 0 0).playtime) := by
  refine ⟨?_, ?_, ?_, ?_⟩
  · refine c3_playtime_accrual.1 10800 weekendFreeplay 3 1 ["p"] "p" [50, 60]
      [("p", gambleSession 0 0)] ⟨false, false⟩ (gambleSession 0 0)
      (by norm_num [weekendFreeplay]) (by simp) (by simp) rfl
      (by simp [lget]) rfl rfl (by norm_num [gambleSession]) ?_ ?_
    · intro d hd
      simp only [List.mem_cons, List.not_mem_nil, or_false] at hd
      rcases hd with rfl | rfl <;> norm_num
    · norm_num [gambleSession]
  · exact c3_playtime_accrual.2.1 10800 weekendFreeplay 700 3 1 ["p"]
      [("p", {gambleSession 5 0 with online := false})] ⟨false, false⟩ "p"
      ({gambleSession 5 0 with online := false})
      (by norm_num [weekendFreeplay]) (by simp) (by simp) rfl
      (by simp [lget]) rfl rfl (by norm_num [gambleSession])
      (by norm_num [gambleSession])
  · exact c3_playtime_accrual.2.2.1 10800 weekendFreeplay 1000 3 1 ["p"]
      [("p", gambleSession 0 0)] ⟨false, false⟩ "p" (gambleSession 0 0)
      (by norm_num [weekendFreeplay]) (by simp) (by simp) rfl
      (by simp [lget]) rfl rfl (by norm_num [gambleSession])
      (by norm_num [gambleSession]) (by norm_num [gambleSession])
  · exact c3_playtime_accrual.2.2.2 10800 weekendFreeplay (-5) 3 1 ["p"]
      [("p", gambleSession 0 0)] ⟨false, false⟩ "p" (gambleSession 0 0)
      (by norm_num [weekendFreeplay]) (by simp) (by simp) rfl
      (by simp [lget]) rfl rfl (by norm_num [gambleSession])
      (by norm_num [gambleSession]) (by norm_num [gambleSession])

/-- C4: on a non-freeplay day, a not-yet-banned player at or over
`baseLimit + rolloverSeconds` is banned exactly once in the cycle — exactly
one `ban` command is issued against them in the whole cycle's effects — with
`banned = true`, `playtimeSeconds = 0`, `sessionStart = lastChecked = now`,
`online = false`, all announcement flags cleared and `sessionDate` untouched;
and the enforcement check issues no ban command for a player whose `banned`
flag is already `true`, leaving it `true`. -/
theorem c4_ban_exactly_once :
    (∀ (baseLimit : ℚ) (cal : Nat → Bool) (now : ℚ) (today weekday : Nat)
       (roster : List String) (file : Ledger) (es : EngineState)
       (p : String) (s : Session),
      cal weekday = false → (file.map Prod.fst).Nodup → roster.Nodup →
      p ∉ roster → es.first_cycle = false → lget file p = some s →
      s.banned = false → baseLimit + s.rollover_time ≤ s.playtime →
      ((session_cycle baseLimit cal now today weekday roster file
          es).2.2.countP (Eff.isBanOf p) = 1
        ∧ lget (session_cycle baseLimit cal now today weekday roster file
            es).1 p
          = some {s with
              online := false, banned := true, playtime := 0,
              session_start := now, last_checked := now,
              announcements := Announcements.allFalse}))
    ∧ (∀ (baseLimit now : ℚ) (p : String) (s : Session),
      s.banned = false → baseLimit + s.rollover_time ≤ s.playtime →
      (enforcePlayer baseLimit now p s).1
        = {s with
            online := false, banned := true, playtime := 0,
            session_start := now, last_checked := now,
            announcements := Announcements.allFalse}
      ∧ (enforcePlayer baseLimit now p s).2.countP (Eff.isBanOf p) = 1)
    ∧ (∀ (baseLimit now : ℚ) (p : String) (s : Session),
      s.banned = true →
      (enforcePlayer baseLimit now p s).2.countP (Eff.isBanOf p) = 0
      ∧ (enforcePlayer baseLimit now p s).1.banned = true) := by
  refine ⟨?_, ?_, ?_⟩
  · intro baseLimit cal now today weekday roster file es p s hcal hkeys hnd
      hnotin hfc hs hban hge
    have hge' : baseLimit + s.rollover_time ≤ max 0 s.playtime :=
      le_trans hge (le_max_right 0 s.playtime)
    have hmem6 : lget (stageMarkOffline roster
        (stageOnlinePlayers baseLimit now today false roster file).1) p
        = some {s with online := false} := by
      simp only [stageMarkOffline]
      rw [lget_lmap, lget_stageOnlinePlayers_notMem _ _ _ _ _ _ _ hnotin, hs]
      simp [hnotin]
    have hkeys6 : ((stageMarkOffline roster
        (stageOnlinePlayers baseLimit now today false roster file).1).map
        Prod.fst).Nodup := by
      simp only [stageMarkOffline]
      rw [lmap_keys]
      exact stageOnlinePlayers_keys_nodup _ _ _ _ _ _ hkeys
    constructor
    · simp only [session_cycle, hfc, Bool.false_eq_true, if_false, hcal]
      rw [List.countP_append, List.countP_append, List.countP_append]
      rw [countP_isBanOf_stageDailyReset,
        countP_isBanOf_stageFreeplayTransition,
        countP_isBanOf_stageOnlinePlayers_notMem _ _ _ _ _ _ _ hnotin]
      rw [countP_mapCollect_single _ _ p _ hkeys6
        (fun q t hq => countP_isBanOf_enforcePlayer_ne _ _ _ _ _ hq)]
      rw [hmem6]
      simp only [Option.map_some', Option.getD_some]
      rw [(enforcePlayer_ban baseLimit now p {s with online := false}
        hban hge').2]
    · rw [session_cycle_lget_notMem _ _ _ _ _ _ _ _ _ hfc hnotin, hs]
      simp only [Option.map_some', hcal, Bool.false_eq_true, if_false]
      rw [(enforcePlayer_ban baseLimit now p {s with online := false}
        hban hge').1]
  · intro baseLimit now p s hban hge
    have hge' : baseLimit + s.rollover_time ≤ max 0 s.playtime :=
      le_trans hge (le_max_right 0 s.playtime)
    obtain ⟨h1, h2⟩ := enforcePlayer_ban baseLimit now p s hban hge'
    exact ⟨h1, h2⟩
  · intro baseLimit now p s hban
    exact enforcePlayer_banned baseLimit now p s hban

/-- C4 witness: a concrete over-quota, unbanned, offline player is banned
exactly once by a concrete cycle, with the claimed field updates. -/
theorem c4_ban_exactly_once_witness :
    (session_cycle 10800 weekendFreeplay 40 7 2 []
        [("b", gambleSession 12000 0)] ⟨false, false⟩).2.2.countP
      (Eff.isBanOf "b") = 1
    ∧ lget (session_cycle 10800 weekendFreeplay 40 7 2 []
        [("b", gambleSession 12000 0)] ⟨false, false⟩).1 "b"
      = some {gambleSession 12000 0 with
          online := false, banned := true, playtime := 0,
          session_start := 40, last_checked := 40,
          announcements := Announcements.allFalse} :=
  c4_ban_exactly_once.1 10800 weekendFreeplay 40 7 2 []
    [("b", gambleSession 12000 0)] ⟨false, false⟩ "b" (gambleSession 12000 0)
    (by norm_num [weekendFreeplay]) (by simp) (by simp) (by simp) rfl
    (by simp [lget]) rfl (by norm_num [gambleSession])

/-- C7 counterexample: the multiplier `2.0005` is not in the published odds
table, yet the request is not rejected — it resolves (here as a loss) and
mutates the ledger, because the check accepts any multiplier within `0.001`
of a table entry. -/
theorem c7_offtable_accept_cex :
    (2.0005 : ℚ) ∉ multipliers.map MultEntry.m
    ∧ (cmd_gamble 10800 1 [("u", gambleSession 0 0)] "u" 5 2.0005 0.9).1
        = .lost
    ∧ (cmd_gamble 10800 1 [("u", gambleSession 0 0)] "u" 5 2.0005 0.9).2
        ≠ [("u", gambleSession 0 0)] := by
  refine ⟨?_, ?_, ?_⟩ <;>
    norm_num [cmd_gamble, lget, lset, gambleSession, findMultConfig,
      multipliers, abs_lt]
